import Mathlib

/-!
# Device-state relay client: `cmd/client/main.go`

A shallow embedding of the client of `kirbo/go-ruuvitag-client` and the
properties of its enrichment, relay and backfill code.

The Go program keeps its state in package-level variables (`Cache`, `config`,
`rdb`) and reads the wall clock; here they are the fields of `World`, passed
explicitly.  Every function of `main.go` is a total Lean function returning the
new world together with an `Outcome`: `done` when the Go function returns,
`panic` when it panics (which ends the process).

Conventions of the embedding:

* `int64` values are `Int`, wrapped with `toInt64` where Go arithmetic can
  overflow;
* `float32` values are exact rationals (`ℚ`): the numeric properties are
  stated in exact arithmetic;
* Go strings are `String`; identifiers reach the program from the scanner
  (hexadecimal hardware addresses) or from decoded JSON, which are valid UTF-8;
  `strings.ToLower` is modelled with the case table of Go's package `unicode`;
* the Redis server and the clock are the environment: the outcome of the
  `k`-th Redis command and the `k`-th clock reading are given by the functions
  `fault` and `now` of the world, so that every behaviour of the environment is
  covered by quantifying over them;
* the measurement loop and the ticker goroutine are interleaved at the
  granularity of whole function calls (`Event`);
* log output is not part of the state.
-/

namespace Ruuvitag

/-! ## Values of the Go runtime -/

/-- Result of running a Go function: it returned (`done`) or it panicked. -/
inductive Outcome (α : Type) where
  | done (a : α)
  | panic (msg : String)
deriving DecidableEq

/-- The value an integer expression has once stored in a Go `int64`
(two's-complement wrap-around). -/
def toInt64 (n : Int) : Int :=
  (n + 9223372036854775808) % 18446744073709551616 - 9223372036854775808

/-- Go's `/` on `int64`: the quotient truncated toward zero. -/
def int64_div (a b : Int) : Int := toInt64 (Int.tdiv a b)

/-- The constant `time.Millisecond`, a `time.Duration` counted in nanoseconds. -/
def time_Millisecond : Int := 1000000

/-- The call `strings.Replace(s, ":", "", -1)`: every occurrence of the
one-byte string `":"` is removed. -/
def strings_Replace_colon (s : String) : String :=
  ⟨s.data.filter (fun c => c != ':')⟩

/-! ## Case tables of Go's package `unicode` -/

/-- One entry of the lower-case column of `unicode.CaseRanges`: the code points
`Lo`, `Lo + Stride`, ... up to `Hi` have the lower-case forms `LowerLo`,
`LowerLo + Stride`, ... -/
structure CaseRange where
  Lo : Nat
  Hi : Nat
  Stride : Nat
  LowerLo : Nat

/-- Shorthand for an entry of `CaseRanges`. -/
def cr (lo hi stride lowerLo : Nat) : CaseRange := ⟨lo, hi, stride, lowerLo⟩

/-- One entry of a `unicode.RangeTable`: the code points `Lo`, `Lo + Stride`,
... up to `Hi`. -/
structure UnicodeRange where
  Lo : Nat
  Hi : Nat
  Stride : Nat

/-- Shorthand for an entry of a range table. -/
def rg (lo hi stride : Nat) : UnicodeRange := ⟨lo, hi, stride⟩

/-- The lower-case mappings of `unicode.CaseRanges` above ASCII: the simple
lower-case mappings of the Unicode Character Database, here in version 14.0.0
(case mappings are stable: other versions differ only in the letters of
scripts added later). -/
def CaseRanges : List CaseRange :=
  [cr 192 214 1 224, cr 216 222 1 248, cr 256 302 2 257, cr 304 304 1 105, cr 306 310 2 307,
    cr 313 327 2 314, cr 330 374 2 331, cr 376 376 1 255, cr 377 381 2 378, cr 385 385 1 595,
    cr 386 388 2 387, cr 390 390 1 596, cr 391 391 1 392, cr 393 394 1 598, cr 395 395 1 396,
    cr 398 398 1 477, cr 399 399 1 601, cr 400 400 1 603, cr 401 401 1 402, cr 403 403 1 608,
    cr 404 404 1 611, cr 406 406 1 617, cr 407 407 1 616, cr 408 408 1 409, cr 412 412 1 623,
    cr 413 413 1 626, cr 415 415 1 629, cr 416 420 2 417, cr 422 422 1 640, cr 423 423 1 424,
    cr 425 425 1 643, cr 428 428 1 429, cr 430 430 1 648, cr 431 431 1 432, cr 433 434 1 650,
    cr 435 437 2 436, cr 439 439 1 658, cr 440 440 1 441, cr 444 444 1 445, cr 452 452 1 454,
    cr 453 453 1 454, cr 455 455 1 457, cr 456 456 1 457, cr 458 458 1 460, cr 459 475 2 460,
    cr 478 494 2 479, cr 497 497 1 499, cr 498 500 2 499, cr 502 502 1 405, cr 503 503 1 447,
    cr 504 542 2 505, cr 544 544 1 414, cr 546 562 2 547, cr 570 570 1 11365, cr 571 571 1 572,
    cr 573 573 1 410, cr 574 574 1 11366, cr 577 577 1 578, cr 579 579 1 384, cr 580 580 1 649,
    cr 581 581 1 652, cr 582 590 2 583, cr 880 882 2 881, cr 886 886 1 887, cr 895 895 1 1011,
    cr 902 902 1 940, cr 904 906 1 941, cr 908 908 1 972, cr 910 911 1 973, cr 913 929 1 945,
    cr 931 939 1 963, cr 975 975 1 983, cr 984 1006 2 985, cr 1012 1012 1 952,
    cr 1015 1015 1 1016, cr 1017 1017 1 1010, cr 1018 1018 1 1019, cr 1021 1023 1 891,
    cr 1024 1039 1 1104, cr 1040 1071 1 1072, cr 1120 1152 2 1121, cr 1162 1214 2 1163,
    cr 1216 1216 1 1231, cr 1217 1229 2 1218, cr 1232 1326 2 1233, cr 1329 1366 1 1377,
    cr 4256 4293 1 11520, cr 4295 4295 1 11559, cr 4301 4301 1 11565, cr 5024 5103 1 43888,
    cr 5104 5109 1 5112, cr 7312 7354 1 4304, cr 7357 7359 1 4349, cr 7680 7828 2 7681,
    cr 7838 7838 1 223, cr 7840 7934 2 7841, cr 7944 7951 1 7936, cr 7960 7965 1 7952,
    cr 7976 7983 1 7968, cr 7992 7999 1 7984, cr 8008 8013 1 8000, cr 8025 8031 2 8017,
    cr 8040 8047 1 8032, cr 8072 8079 1 8064, cr 8088 8095 1 8080, cr 8104 8111 1 8096,
    cr 8120 8121 1 8112, cr 8122 8123 1 8048, cr 8124 8124 1 8115, cr 8136 8139 1 8050,
    cr 8140 8140 1 8131, cr 8152 8153 1 8144, cr 8154 8155 1 8054, cr 8168 8169 1 8160,
    cr 8170 8171 1 8058, cr 8172 8172 1 8165, cr 8184 8185 1 8056, cr 8186 8187 1 8060,
    cr 8188 8188 1 8179, cr 8486 8486 1 969, cr 8490 8490 1 107, cr 8491 8491 1 229,
    cr 8498 8498 1 8526, cr 8544 8559 1 8560, cr 8579 8579 1 8580, cr 9398 9423 1 9424,
    cr 11264 11311 1 11312, cr 11360 11360 1 11361, cr 11362 11362 1 619, cr 11363 11363 1 7549,
    cr 11364 11364 1 637, cr 11367 11371 2 11368, cr 11373 11373 1 593, cr 11374 11374 1 625,
    cr 11375 11375 1 592, cr 11376 11376 1 594, cr 11378 11378 1 11379, cr 11381 11381 1 11382,
    cr 11390 11391 1 575, cr 11392 11490 2 11393, cr 11499 11501 2 11500, cr 11506 11506 1 11507,
    cr 42560 42604 2 42561, cr 42624 42650 2 42625, cr 42786 42798 2 42787,
    cr 42802 42862 2 42803, cr 42873 42875 2 42874, cr 42877 42877 1 7545, cr 42878 42886 2 42879,
    cr 42891 42891 1 42892, cr 42893 42893 1 613, cr 42896 42898 2 42897, cr 42902 42920 2 42903,
    cr 42922 42922 1 614, cr 42923 42923 1 604, cr 42924 42924 1 609, cr 42925 42925 1 620,
    cr 42926 42926 1 618, cr 42928 42928 1 670, cr 42929 42929 1 647, cr 42930 42930 1 669,
    cr 42931 42931 1 43859, cr 42932 42946 2 42933, cr 42948 42948 1 42900, cr 42949 42949 1 642,
    cr 42950 42950 1 7566, cr 42951 42953 2 42952, cr 42960 42960 1 42961, cr 42966 42968 2 42967,
    cr 42997 42997 1 42998, cr 65313 65338 1 65345, cr 66560 66599 1 66600,
    cr 66736 66771 1 66776, cr 66928 66938 1 66967, cr 66940 66954 1 66979,
    cr 66956 66962 1 66995, cr 66964 66965 1 67003, cr 68736 68786 1 68800,
    cr 71840 71871 1 71872, cr 93760 93791 1 93792, cr 125184 125217 1 125218]

/-- The table `unicode.Upper`: the code points of category Lu, upper-case
letter (Unicode Character Database, version 14.0.0). -/
def Upper : List UnicodeRange :=
  [rg 65 90 1, rg 192 214 1, rg 216 222 1, rg 256 310 2, rg 313 327 2, rg 330 376 2,
    rg 377 381 2, rg 385 386 1, rg 388 390 2, rg 391 393 2, rg 394 395 1, rg 398 401 1,
    rg 403 404 1, rg 406 408 1, rg 412 413 1, rg 415 416 1, rg 418 422 2, rg 423 425 2,
    rg 428 430 2, rg 431 433 2, rg 434 435 1, rg 437 439 2, rg 440 440 1, rg 444 444 1,
    rg 452 452 1, rg 455 455 1, rg 458 458 1, rg 461 475 2, rg 478 494 2, rg 497 497 1,
    rg 500 502 2, rg 503 504 1, rg 506 562 2, rg 570 571 1, rg 573 574 1, rg 577 579 2,
    rg 580 582 1, rg 584 590 2, rg 880 882 2, rg 886 886 1, rg 895 895 1, rg 902 904 2,
    rg 905 906 1, rg 908 910 2, rg 911 913 2, rg 914 929 1, rg 931 939 1, rg 975 975 1,
    rg 978 980 1, rg 984 1006 2, rg 1012 1012 1, rg 1015 1017 2, rg 1018 1018 1,
    rg 1021 1071 1, rg 1120 1152 2, rg 1162 1216 2, rg 1217 1229 2, rg 1232 1326 2,
    rg 1329 1366 1, rg 4256 4293 1, rg 4295 4295 1, rg 4301 4301 1, rg 5024 5109 1,
    rg 7312 7354 1, rg 7357 7359 1, rg 7680 7828 2, rg 7838 7934 2, rg 7944 7951 1,
    rg 7960 7965 1, rg 7976 7983 1, rg 7992 7999 1, rg 8008 8013 1, rg 8025 8031 2,
    rg 8040 8047 1, rg 8120 8123 1, rg 8136 8139 1, rg 8152 8155 1, rg 8168 8172 1,
    rg 8184 8187 1, rg 8450 8450 1, rg 8455 8455 1, rg 8459 8461 1, rg 8464 8466 1,
    rg 8469 8469 1, rg 8473 8477 1, rg 8484 8490 2, rg 8491 8493 1, rg 8496 8499 1,
    rg 8510 8511 1, rg 8517 8517 1, rg 8579 8579 1, rg 11264 11311 1, rg 11360 11362 2,
    rg 11363 11364 1, rg 11367 11373 2, rg 11374 11376 1, rg 11378 11378 1, rg 11381 11381 1,
    rg 11390 11392 1, rg 11394 11490 2, rg 11499 11501 2, rg 11506 11506 1, rg 42560 42604 2,
    rg 42624 42650 2, rg 42786 42798 2, rg 42802 42862 2, rg 42873 42877 2, rg 42878 42886 2,
    rg 42891 42893 2, rg 42896 42898 2, rg 42902 42922 2, rg 42923 42926 1, rg 42928 42932 1,
    rg 42934 42948 2, rg 42949 42951 1, rg 42953 42953 1, rg 42960 42960 1, rg 42966 42968 2,
    rg 42997 42997 1, rg 65313 65338 1, rg 66560 66599 1, rg 66736 66771 1, rg 66928 66938 1,
    rg 66940 66954 1, rg 66956 66962 1, rg 66964 66965 1, rg 68736 68786 1, rg 71840 71871 1,
    rg 93760 93791 1, rg 119808 119833 1, rg 119860 119885 1, rg 119912 119937 1,
    rg 119964 119966 2, rg 119967 119967 1, rg 119970 119970 1, rg 119973 119974 1,
    rg 119977 119980 1, rg 119982 119989 1, rg 120016 120041 1, rg 120068 120069 1,
    rg 120071 120074 1, rg 120077 120084 1, rg 120086 120092 1, rg 120120 120121 1,
    rg 120123 120126 1, rg 120128 120132 1, rg 120134 120134 1, rg 120138 120144 1,
    rg 120172 120197 1, rg 120224 120249 1, rg 120276 120301 1, rg 120328 120353 1,
    rg 120380 120405 1, rg 120432 120457 1, rg 120488 120512 1, rg 120546 120570 1,
    rg 120604 120628 1, rg 120662 120686 1, rg 120720 120744 1, rg 120778 120778 1,
    rg 125184 125217 1]

/-- Whether a code point is listed by an entry of `CaseRanges`. -/
def CaseRange.has (e : CaseRange) (n : Nat) : Bool :=
  e.Lo ≤ n && n ≤ e.Hi && (n - e.Lo) % e.Stride == 0

/-- The look-up of `unicode.To(unicode.LowerCase, r)` in a table: the
lower-case form of code point `n`, when it has one. -/
def lowerOf : List CaseRange → Nat → Option Nat
  | [], _ => none
  | e :: rest, n => if e.has n then some (n - e.Lo + e.LowerLo) else lowerOf rest n

/-- Go `unicode.ToLower`: the letters `A`..`Z` are mapped within ASCII, other
ASCII characters are kept, and a character above ASCII is looked up in
`CaseRanges`. -/
def unicode_ToLower (c : Char) : Char :=
  if c.toNat ≤ 127 then c.toLower
  else
    match lowerOf CaseRanges c.toNat with
    | some m => Char.ofNat m
    | none => c

/-- Go `unicode.IsUpper`: membership in the table `unicode.Upper`. -/
def unicode_IsUpper (c : Char) : Bool :=
  Upper.any (fun r => r.Lo ≤ c.toNat && c.toNat ≤ r.Hi && (c.toNat - r.Lo) % r.Stride == 0)

/-- The images of entry `e` avoid the code points listed by entry `f`: the
intervals are apart, or the two progressions have different parity. -/
def CaseRange.apart (e f : CaseRange) : Bool :=
  e.LowerLo + (e.Hi - e.Lo) < f.Lo || f.Hi < e.LowerLo ||
  (e.Stride == 2 && f.Stride == 2 && (e.LowerLo + f.Lo) % 2 == 1) ||
  (e.Stride == 2 && f.Lo == f.Hi && (e.LowerLo + f.Lo) % 2 == 1) ||
  (f.Stride == 2 && e.Hi == e.Lo && (e.LowerLo + f.Lo) % 2 == 1)

/-- The images of entry `e` are characters that have no lower-case form of
their own in table `t`: they are valid code points, they are above ASCII or a
single letter `a`..`z`, and no entry of `t` lists them. -/
def CaseRange.settled (t : List CaseRange) (e : CaseRange) : Bool :=
  t.all (CaseRange.apart e) &&
  (e.LowerLo + (e.Hi - e.Lo) < 55296 ||
    (57343 < e.LowerLo && e.LowerLo + (e.Hi - e.Lo) < 1114112)) &&
  (128 ≤ e.LowerLo || (e.Lo == e.Hi && 97 ≤ e.LowerLo && e.LowerLo ≤ 122))

/-- Go `strings.ToLower`: every character is replaced by its
`unicode.ToLower` (the ASCII path and the `strings.Map` path of the Go
function agree with this). -/
def strings_ToLower (s : String) : String :=
  ⟨s.data.map unicode_ToLower⟩

/-! ## Data model -/

/-- Modelled from the spec: `models.DeviceAcceleration` of package
`internal/models`, whose declaration is not among the sources; the fields are
the ones `handler` assigns. -/
structure DeviceAcceleration where
  X : ℚ
  Y : ℚ
  Z : ℚ
deriving DecidableEq

/-- Modelled from the spec: `models.Device` of package `internal/models`
(the DeviceState of the specification), whose declaration is not among the
sources; the fields are the ones `main.go` and `store.go` read and assign. -/
structure Device where
  ID : String
  OldID : String
  Name : String
  Ping : Int
  Format : Nat
  Humidity : ℚ
  Temperature : ℚ
  Pressure : ℚ
  Timestamp : Int
  TimestampZ : String
  Acceleration : DeviceAcceleration
  Battery : ℚ
deriving DecidableEq

/-- Modelled from the spec: one element of `models.JsonDevices` (the
DeviceConfigEntry of the specification): an id and a display name. -/
structure JsonDevice where
  ID : String
  Name : String
deriving DecidableEq

/-- The interface `ruuvitag.Measurement` of the scanner library, as far as
`handler` calls it: each upper-case field is the value the method of that
name returns, the pressure being the raw count of hundredths of hPa;
`batteryMillivolts` is the raw battery reading of the sensor, a count of
millivolts, which the library reports through `BatteryVoltage`. -/
structure Measurement where
  DeviceID : String
  Format : Nat
  Humidity : ℚ
  Temperature : ℚ
  Pressure : Nat
  AccelerationX : ℚ
  AccelerationY : ℚ
  AccelerationZ : ℚ
  batteryMillivolts : Nat
deriving DecidableEq

/-- Modelled from the spec: the method `BatteryVoltage` of the scanner
library, which is not among the sources.  The battery is read in millivolts
and converted to volts on read (the specification, section 3; `main.go`
prints the value it returns with the unit `v`). -/
def Measurement.BatteryVoltage (m : Measurement) : ℚ :=
  (m.batteryMillivolts : ℚ) / 1000

/-- Modelled from the spec: the constants `channels.Device` and
`channels.Insert` of package `internal/channels`, which is not among the
sources, together with the two library encoders `handler` calls.  They are
parameters of the embedding. -/
structure Env where
  /-- The rendering `time.Unix(sec, 0).Format(time.RFC3339)`. -/
  formatRFC3339 : Int → String
  /-- The encoder `json.Marshal` on a device record (it fails only on
  non-finite floats, which exact arithmetic does not have). -/
  jsonMarshal : Device → String
  /-- The key prefix `channels.Device` of a live device record. -/
  Device : String
  /-- The key prefix `channels.Insert` of a time-stamped sample. -/
  Insert : String

/-! ## The in-process cache (`patrickmn/go-cache`) -/

/-- A value stored in the cache, an `interface{}`: the program stores
strings, `int64` timestamps and device records. -/
inductive CacheItem where
  | string (s : String)
  | int64 (n : Int)
  | Device (d : Device)
deriving DecidableEq

/-- The cache, a map from string keys to items without expiration. -/
abbrev Cache := String → Option CacheItem

/-- The empty cache `cache.New(0, 0)`. -/
def Cache.New : Cache := fun _ => none

/-- The method `Cache.Get`: the item and `found`. -/
def Cache.Get (c : Cache) (k : String) : Option CacheItem := c k

/-- The method `Cache.Set` with `cache.NoExpiration`. -/
def Cache.Set (c : Cache) (k : String) (v : CacheItem) : Cache :=
  fun k' => if k' = k then some v else c k'

/-- The type assertion `value.(int64)`; it panics on another dynamic type. -/
def assertInt64 : CacheItem → Outcome Int
  | .int64 n => .done n
  | _ => .panic "interface conversion: not int64"

/-- The type assertion `value.(string)`. -/
def assertString : CacheItem → Outcome String
  | .string s => .done s
  | _ => .panic "interface conversion: not string"

/-- The type assertion `x.(models.Device)`. -/
def assertDevice : CacheItem → Outcome Device
  | .Device d => .done d
  | _ => .panic "interface conversion: not models.Device"

/-! ## The Redis client -/

/-- One command sent to Redis together with its result. -/
inductive RedisCall where
  | get (key : String) (result : Option String)
  | publish (channel : String) (data : String) (err : Option String)
  | set (key : String) (data : String) (err : Option String)
deriving DecidableEq

/-- Whether a command is a fetch that returned a value. -/
def RedisCall.fetched : RedisCall → Bool
  | .get _ (some _) => true
  | _ => false

/-- The number of fetches that returned a value among the first `i` commands
of a trace. -/
def fetchedBefore (calls : List RedisCall) (i : Nat) : Nat :=
  ((calls.take i).filter RedisCall.fetched).length

/-- The Redis server as seen through `rdb`: the key space, the messages
delivered to channels (oldest first), the commands sent so far (oldest first)
and, for every command number, whether that command fails.  A command that
fails leaves the key space and the delivered messages as they were, and the
server changes only through the commands of this client. -/
structure Redis where
  kv : String → Option String
  published : List (String × String)
  calls : List RedisCall
  fault : Nat → Option String

/-- The call `rdb.Publish(ctx, channel, data).Err()`. -/
def Redis.Publish (r : Redis) (channel data : String) : Option String × Redis :=
  match r.fault r.calls.length with
  | some e => (some e, { r with calls := r.calls ++ [.publish channel data (some e)] })
  | none =>
    (none, { r with published := r.published ++ [(channel, data)],
                    calls := r.calls ++ [.publish channel data none] })

/-- The call `rdb.Set(ctx, key, data, 0).Err()`. -/
def Redis.Set (r : Redis) (key data : String) : Option String × Redis :=
  match r.fault r.calls.length with
  | some e => (some e, { r with calls := r.calls ++ [.set key data (some e)] })
  | none =>
    (none, { r with kv := fun k => if k = key then some data else r.kv k,
                    calls := r.calls ++ [.set key data none] })

/-- The call `rdb.Get(ctx, key).Result()`: the value, or an error when the
command fails or the key does not exist (`redis.Nil`). -/
def Redis.Get (r : Redis) (key : String) : Except String String × Redis :=
  match r.fault r.calls.length with
  | some e => (.error e, { r with calls := r.calls ++ [.get key none] })
  | none =>
    match r.kv key with
    | some val => (.ok val, { r with calls := r.calls ++ [.get key (some val)] })
    | none => (.error "redis: nil", { r with calls := r.calls ++ [.get key none] })

/-! ## The process state -/

/-- The package-level variables of `main.go` and the clock. -/
structure World where
  /-- The variable `Cache`. -/
  Cache : Cache
  /-- The variable `config`. -/
  config : List JsonDevice
  /-- The variable `rdb` and the server behind it. -/
  rdb : Redis
  /-- The value of `time.Now().UnixNano()` at the k-th reading of the clock. -/
  now : Nat → Int
  /-- The number of clock readings taken so far. -/
  reads : Nat

/-- The epoch-millisecond value of the k-th clock reading. -/
def timestampAt (now : Nat → Int) (k : Nat) : Int :=
  int64_div (toInt64 (now k)) time_Millisecond

/-! ## The functions of `main.go` -/

/-- Go `makeTimestamp` (main.go 124-126): the clock in milliseconds. -/
def makeTimestamp (w : World) : Int × World :=
  (timestampAt w.now w.reads, { w with reads := w.reads + 1 })

/-- Go `parseOldID` (main.go 128-130). -/
def parseOldID (id : String) : String :=
  strings_ToLower (strings_Replace_colon id)

/-- Go `setAndPublish` (main.go 108-122). -/
def setAndPublish (r : Redis) (channel data : String) : Option String × Redis :=
  let p := r.Publish channel data
  match p.1 with
  | some err => (some err, p.2)
  | none =>
    let s := p.2.Set channel data
    match s.1 with
    | some err => (some err, s.2)
    | none => (none, s.2)

/-- One field of `mergo.Merge` without options: the destination takes the
source value exactly when the destination is the zero value and the source
is not. -/
def mergoField {α : Type} [DecidableEq α] (zero dst src : α) : α :=
  if dst = zero ∧ src ≠ zero then src else dst

/-- The call `mergo.Merge(&dst, src)` on two device records: field by field,
descending into the nested acceleration record. -/
def mergo_Merge (dst src : Device) : Device :=
  { ID := mergoField "" dst.ID src.ID
    OldID := mergoField "" dst.OldID src.OldID
    Name := mergoField "" dst.Name src.Name
    Ping := mergoField 0 dst.Ping src.Ping
    Format := mergoField 0 dst.Format src.Format
    Humidity := mergoField 0 dst.Humidity src.Humidity
    Temperature := mergoField 0 dst.Temperature src.Temperature
    Pressure := mergoField 0 dst.Pressure src.Pressure
    Timestamp := mergoField 0 dst.Timestamp src.Timestamp
    TimestampZ := mergoField "" dst.TimestampZ src.TimestampZ
    Acceleration :=
      { X := mergoField 0 dst.Acceleration.X src.Acceleration.X
        Y := mergoField 0 dst.Acceleration.Y src.Acceleration.Y
        Z := mergoField 0 dst.Acceleration.Z src.Acceleration.Z }
    Battery := mergoField 0 dst.Battery src.Battery }

/-- The zero value of `models.Device`. -/
def Device.zero : Device :=
  { ID := "", OldID := "", Name := "", Ping := 0, Format := 0, Humidity := 0,
    Temperature := 0, Pressure := 0, Timestamp := 0, TimestampZ := "",
    Acceleration := { X := 0, Y := 0, Z := 0 }, Battery := 0 }

/-- The variable `ping` of `handler` (main.go 136, 141-144). -/
def handlerPing (c : Cache) (address : String) (timestamp : Int) : Outcome Int :=
  match c.Get ("lastTimestamp:" ++ address) with
  | some value =>
    match assertInt64 value with
    | .done lastTimestamp => .done (toInt64 (timestamp - lastTimestamp))
    | .panic e => .panic e
  | none => .done 0

/-- The variable `name` of `handler` (main.go 137, 146-148). -/
def handlerName (c : Cache) (address : String) : Outcome String :=
  match c.Get ("name:" ++ address) with
  | some value => assertString value
  | none => .done ""

/-- The identity record `device` of `handler` before the merge
(main.go 150-154). -/
def handlerIdentity (address addressOld name : String) : Device :=
  { Device.zero with ID := address, OldID := addressOld, Name := name }

/-- The record `deviceStub` of `handler` (main.go 156-170). -/
def handlerStub (x : Env) (data : Measurement) (ping timestamp : Int) : Device :=
  { Device.zero with
    Ping := ping
    Format := data.Format
    Humidity := data.Humidity
    Temperature := data.Temperature
    Pressure := (data.Pressure : ℚ) / 100
    Timestamp := timestamp
    TimestampZ := x.formatRFC3339 (int64_div timestamp 1000)
    Acceleration :=
      { X := data.AccelerationX, Y := data.AccelerationY, Z := data.AccelerationZ }
    Battery := data.BatteryVoltage }

/-- Go `handler` (main.go 132-189).  The result is the merged record
`device` when the function returns. -/
def handler (x : Env) (w : World) (data : Measurement) : Outcome Device × World :=
  let address := data.DeviceID
  let addressOld := parseOldID address
  let t := makeTimestamp w
  let timestamp := t.1
  let w1 := t.2
  match handlerPing w1.Cache address timestamp with
  | .panic e => (.panic e, w1)
  | .done ping =>
    match handlerName w1.Cache address with
    | .panic e => (.panic e, w1)
    | .done name =>
      let device := mergo_Merge (handlerIdentity address addressOld name)
        (handlerStub x data ping timestamp)
      let c1 := w1.Cache.Set (x.Device ++ address) (.Device device)
      let c2 := c1.Set ("lastTimestamp:" ++ address) (.int64 timestamp)
      let redisData := x.jsonMarshal device
      let s := setAndPublish w1.rdb (x.Device ++ addressOld) redisData
      let w2 := { w1 with Cache := c2, rdb := s.2 }
      match s.1 with
      | some err => (.panic err, w2)
      | none => (.done device, w2)

/-- The loop of Go `loadConfigs` (main.go 56-71) over the entries still to be
visited. -/
def loadConfigsLoop (x : Env) : List JsonDevice → Cache → Outcome Unit × Cache
  | [], c => (.done (), c)
  | entry :: rest, c =>
    let c1 := c.Set ("name:" ++ entry.ID) (.string entry.Name)
    match c1.Get (x.Device ++ entry.ID) with
    | some item =>
      match assertDevice item with
      | .panic e => (.panic e, c1)
      | .done _ => loadConfigsLoop x rest c1
    | none => loadConfigsLoop x rest c1

/-- Go `loadConfigs` (main.go 46-72).  The argument `some decoded` is the value
that `json.Unmarshal` leaves in `config`; `none` stands for a call that leaves
`config` as it was. -/
def loadConfigs (x : Env) (w : World) (file : Option (List JsonDevice)) :
    Outcome Unit × World :=
  let config := match file with
    | some decoded => decoded
    | none => w.config
  let l := loadConfigsLoop x config w.Cache
  (l.1, { w with config := config, Cache := l.2 })

/-- The key under which `createInserts` republishes a record at time `ts`. -/
def insertKey (x : Env) (ts : Int) (oldID : String) : String :=
  x.Insert ++ toString ts ++ ":" ++ oldID

/-- The loop of Go `createInserts` (main.go 91-105) over the entries still to
be visited. -/
def createInsertsLoop (x : Env) : List JsonDevice → World → Outcome Unit × World
  | [], w => (.done (), w)
  | sensor :: rest, w =>
    let oldID := parseOldID sensor.ID
    let g := w.rdb.Get (x.Device ++ oldID)
    let w1 := { w with rdb := g.2 }
    match g.1 with
    | .error _ => (.done (), w1)
    | .ok val =>
      let t := makeTimestamp w1
      let s := setAndPublish t.2.rdb (insertKey x t.1 oldID) val
      let w2 := { t.2 with rdb := s.2 }
      match s.1 with
      | some err => (.panic err, w2)
      | none => createInsertsLoop x rest w2

/-- Go `createInserts` (main.go 90-106). -/
def createInserts (x : Env) (w : World) : Outcome Unit × World :=
  createInsertsLoop x w.config w

/-- What the process does next: the scanner delivers a measurement to
`handler`, or the ticker goroutine runs `loadConfigs` or `createInserts`. -/
inductive Event where
  | measurement (data : Measurement)
  | loadConfigs (file : Option (List JsonDevice))
  | createInserts

/-- One event; the result carries the device state when one is produced. -/
def step (x : Env) (w : World) : Event → Outcome (Option Device) × World
  | .measurement data =>
    match handler x w data with
    | (.done d, w1) => (.done (some d), w1)
    | (.panic e, w1) => (.panic e, w1)
  | .loadConfigs file =>
    match loadConfigs x w file with
    | (.done _, w1) => (.done none, w1)
    | (.panic e, w1) => (.panic e, w1)
  | .createInserts =>
    match createInserts x w with
    | (.done _, w1) => (.done none, w1)
    | (.panic e, w1) => (.panic e, w1)

/-- The process on a sequence of events: the device states produced, in order,
and the world reached; a panic ends the run. -/
def run (x : Env) : World → List Event → List Device × Outcome Unit × World
  | w, [] => ([], .done (), w)
  | w, e :: es =>
    match step x w e with
    | (.panic msg, w1) => ([], .panic msg, w1)
    | (.done none, w1) => run x w1 es
    | (.done (some d), w1) =>
      let r := run x w1 es
      (d :: r.1, r.2)

/-- The world at process start: an empty cache, no configuration loaded, no
command sent and no clock reading taken. -/
def World.init (kv : String → Option String) (fault : Nat → Option String)
    (now : Nat → Int) : World :=
  { Cache := Cache.New, config := [],
    rdb := { kv := kv, published := [], calls := [], fault := fault },
    now := now, reads := 0 }

/-! ## Concrete parameters used in the examples -/

/-- The channel prefixes `device:` and `insert:`, with placeholder encoders:
the time rendering and the JSON text play no part in the properties below. -/
def Env.sample : Env :=
  { Device := "device:", Insert := "insert:",
    formatRFC3339 := fun _ => "", jsonMarshal := fun d => d.ID }

/-- A server without stored keys on which no command fails. -/
def Redis.sample : Redis :=
  { kv := fun _ => none, published := [], calls := [], fault := fun _ => none }

/-- A server without stored keys on which exactly the command number `n`
fails. -/
def Redis.failing (n : Nat) : Redis :=
  { kv := fun _ => none, published := [], calls := [],
    fault := fun k => if k = n then some "connection refused" else none }

/-- The measurement of the scenario of the specification: raw pressure 101325
and a battery reading of 3000 mV. -/
def Measurement.scenario : Measurement :=
  { DeviceID := "AA:BB:CC:DD:EE:FF", Format := 5, Humidity := 40, Temperature := 21,
    Pressure := 101325, AccelerationX := 0, AccelerationY := 0, AccelerationZ := 0,
    batteryMillivolts := 3000 }

/-- A freshly started process whose clock always reads 1000 ms and whose
Redis commands all succeed. -/
def World.fresh : World :=
  World.init (fun _ => none) (fun _ => none) (fun _ => 1000000000)

/-- The fresh process after the display name `Sauna` has been cached for the
device of the scenario. -/
def World.named : World :=
  { World.fresh with
    Cache := Cache.New.Set "name:AA:BB:CC:DD:EE:FF" (.string "Sauna") }

/-- A second device, for runs with more than one sensor. -/
def Measurement.other : Measurement :=
  { Measurement.scenario with DeviceID := "11:22:33:44:55:66" }

/-- A configuration naming the two devices of the examples. -/
def JsonDevice.samples : List JsonDevice :=
  [{ ID := "AA:BB:CC:DD:EE:FF", Name := "Sauna" }, { ID := "11:22:33:44:55:66", Name := "Attic" }]

/-- A freshly started process whose clock reads 1000 ms at the first reading
and 4000 ms afterwards. -/
def World.forwards : World :=
  World.init (fun _ => none) (fun _ => none)
    (fun k => if k = 0 then 1000000000 else 4000000000)

/-- A freshly started process whose clock is set back: it reads 2000 ms at
the first reading and 1000 ms afterwards. -/
def World.backwards : World :=
  World.init (fun _ => none) (fun _ => none)
    (fun k => if k = 0 then 2000000000 else 1000000000)

/-- The cached timestamp item of device `a`, if it is a timestamp, is `t`:
the key holds an item, and an `int64` item there has value `t`. -/
def TimestampIs (c : Cache) (a : String) (t : Int) : Prop :=
  ∃ v, c.Get ("lastTimestamp:" ++ a) = some v ∧ ∀ n, v = .int64 n → n = t

/-- Every timestamp item of the cache is an earlier reading of the clock
`now`, which is the clock of the world. -/
def ClockInv (now : Nat → Int) (w : World) : Prop :=
  w.now = now ∧
    ∀ k n, w.Cache.Get k = some (.int64 n) → ∃ j, j < w.reads ∧ n = timestampAt now j

/-- The events between the two measurements of the example run: another
device is measured and the ticker reloads the configuration and backfills. -/
def Event.between : List Event :=
  [.measurement Measurement.other, .loadConfigs (some JsonDevice.samples), .createInserts]

/-- The process `World.forwards` after the first measurement of the scenario. -/
def World.afterFirst : World :=
  (handler Env.sample World.forwards Measurement.scenario).2

/-- The process `World.afterFirst` after the events `Event.between`. -/
def World.afterBetween : World :=
  (run Env.sample World.afterFirst Event.between).2.2

/-- A configuration that lists one id twice, with two names. -/
def JsonDevice.duplicated : List JsonDevice :=
  [{ ID := "AA:BB:CC:DD:EE:FF", Name := "Sauna" }, { ID := "AA:BB:CC:DD:EE:FF", Name := "Attic" }]

/-- A process whose durable store holds a record for the device of the
scenario only, whose configuration lists that device first and a device
without record second, and whose clock reads 1000 ms. -/
def World.stored : World :=
  { World.fresh with
    config := JsonDevice.samples
    rdb := { Redis.sample with
      kv := fun k => if k = "device:aabbccddeeff" then some "record-of-sauna" else none } }

/-- A process whose durable store holds a record for each of the two
configured devices and whose clock reads 1000 ms and then 4000 ms. -/
def World.storedBoth : World :=
  { World.forwards with
    config := JsonDevice.samples
    rdb := { Redis.sample with
      kv := fun k =>
        if k = "device:aabbccddeeff" then some "record-of-sauna"
        else if k = "device:112233445566" then some "record-of-attic" else none } }

/-- The process `World.stored` with the configuration in the other order: the
device without record comes first. -/
def World.gap : World :=
  { World.stored with config := JsonDevice.samples.reverse }

/-! ## Characters and `parseOldID` -/

theorem toNat_ofNat_of_lt (n : Nat) (h : n < 55296) : (Char.ofNat n).toNat = n := by
  have hv : n.isValidChar := Or.inl h
  simp only [Char.ofNat, hv, dite_true]
  rfl

/-- Either a character is kept by `Char.toLower` and is not in `A`..`Z`, or it
is in `A`..`Z` and its code is raised by 32. -/
theorem toLower_cases (c : Char) :
    (c.toLower = c ∧ ¬ (65 ≤ c.toNat ∧ c.toNat ≤ 90)) ∨
    (65 ≤ c.toNat ∧ c.toNat ≤ 90 ∧ c.toLower.toNat = c.toNat + 32) := by
  unfold Char.toLower
  by_cases h : c.toNat ≥ 65 ∧ c.toNat ≤ 90
  · right
    simp only [h, and_self, if_true, true_and]
    exact toNat_ofNat_of_lt _ (by omega)
  · left
    simp [h]

theorem toLower_toLower (c : Char) : c.toLower.toLower = c.toLower := by
  rcases toLower_cases c with ⟨h, _⟩ | ⟨h1, h2, h3⟩
  · rw [h, h]
  · rcases toLower_cases c.toLower with ⟨h, _⟩ | ⟨h4, h5, _⟩
    · exact h
    · omega

theorem isUpper_iff (c : Char) : c.isUpper = true ↔ (65 ≤ c.toNat ∧ c.toNat ≤ 90) := by
  unfold Char.isUpper Char.toNat
  simp only [Bool.and_eq_true, decide_eq_true_eq, ge_iff_le]
  have h1 : (65 : UInt32) ≤ c.val ↔ 65 ≤ c.val.toNat := by
    show (65 : UInt32).toNat ≤ c.val.toNat ↔ _
    rfl
  have h2 : c.val ≤ (90 : UInt32) ↔ c.val.toNat ≤ 90 := by
    show c.val.toNat ≤ (90 : UInt32).toNat ↔ _
    rfl
  rw [h1, h2]

theorem toLower_not_isUpper (c : Char) : c.toLower.isUpper = false := by
  have key : ¬ (65 ≤ c.toLower.toNat ∧ c.toLower.toNat ≤ 90) := by
    rcases toLower_cases c with ⟨h, hn⟩ | ⟨h1, h2, h3⟩
    · rw [h]; exact hn
    · omega
  cases hu : c.toLower.isUpper
  · rfl
  · exact absurd ((isUpper_iff _).mp hu) key

theorem toLower_eq_colon (c : Char) : c.toLower = ':' ↔ c = ':' := by
  constructor
  · intro h
    rcases toLower_cases c with ⟨hk, _⟩ | ⟨h1, h2, h3⟩
    · rw [← hk, h]
    · rw [h] at h3
      have h58 : (':' : Char).toNat = 58 := rfl
      omega
  · rintro rfl; rfl

theorem toNat_ofNat_of_valid (n : Nat) (hv : n.isValidChar) : (Char.ofNat n).toNat = n := by
  simp only [Char.ofNat, hv, dite_true]
  rfl

set_option maxRecDepth 1000000 in
/-- Every image of `CaseRanges` is settled: it has no lower-case form of its
own. -/
theorem CaseRanges_settled : CaseRanges.all (CaseRange.settled CaseRanges) = true := by
  decide!

theorem CaseRange.has_iff (e : CaseRange) (n : Nat) :
    e.has n = true ↔ e.Lo ≤ n ∧ n ≤ e.Hi ∧ (n - e.Lo) % e.Stride = 0 := by
  simp [CaseRange.has, and_assoc]

theorem lowerOf_some (t : List CaseRange) (n m : Nat) (h : lowerOf t n = some m) :
    ∃ e ∈ t, e.has n = true ∧ m = n - e.Lo + e.LowerLo := by
  induction t with
  | nil => simp [lowerOf] at h
  | cons e rest ih =>
    unfold lowerOf at h
    by_cases he : e.has n = true
    · simp only [he, if_true, Option.some.injEq] at h
      exact ⟨e, List.mem_cons_self _ _, he, h.symm⟩
    · simp only [he] at h
      obtain ⟨f, hf, hh⟩ := ih h
      exact ⟨f, List.mem_cons_of_mem _ hf, hh⟩

theorem lowerOf_none (t : List CaseRange) (m : Nat) (h : ∀ f ∈ t, f.has m = false) :
    lowerOf t m = none := by
  induction t with
  | nil => rfl
  | cons e rest ih =>
    unfold lowerOf
    rw [h e (List.mem_cons_self _ _)]
    exact ih (fun f hf => h f (List.mem_cons_of_mem _ hf))

theorem CaseRange.apart_sound (e f : CaseRange) (n : Nat) (he : e.has n = true)
    (ha : e.apart f = true) : f.has (n - e.Lo + e.LowerLo) = false := by
  rw [CaseRange.has_iff] at he
  obtain ⟨h1, h2, h3⟩ := he
  cases hf : f.has (n - e.Lo + e.LowerLo) with
  | false => rfl
  | true =>
    exfalso
    rw [CaseRange.has_iff] at hf
    obtain ⟨g1, g2, g3⟩ := hf
    simp only [CaseRange.apart, Bool.or_eq_true, Bool.and_eq_true, decide_eq_true_eq,
      beq_iff_eq] at ha
    rcases ha with (((ha | ha) | ⟨⟨s1, s2⟩, hp⟩) | ⟨⟨s1, s2⟩, hp⟩) | ⟨⟨s1, s2⟩, hp⟩
    · omega
    · omega
    · rw [s1] at h3; rw [s2] at g3; omega
    · rw [s1] at h3; omega
    · rw [s1] at g3; omega

/-- A character above ASCII is kept by `unicode.ToLower`, or is mapped to a
character that is a letter `a`..`z` or has no entry in `CaseRanges`. -/
theorem unicode_ToLower_cases (c : Char) (hc : ¬ c.toNat ≤ 127) :
    (lowerOf CaseRanges c.toNat = none ∧ unicode_ToLower c = c) ∨
    (∃ m, unicode_ToLower c = Char.ofNat m ∧ (Char.ofNat m).toNat = m ∧
      ((97 ≤ m ∧ m ≤ 122) ∨ (128 ≤ m ∧ lowerOf CaseRanges m = none))) := by
  unfold unicode_ToLower
  simp only [hc, if_false]
  cases hl : lowerOf CaseRanges c.toNat with
  | none => exact Or.inl ⟨rfl, rfl⟩
  | some m =>
    right
    obtain ⟨e, he, hhas, hm⟩ := lowerOf_some _ _ _ hl
    have hs := List.all_eq_true.mp CaseRanges_settled e he
    simp only [CaseRange.settled, Bool.and_eq_true, Bool.or_eq_true, decide_eq_true_eq,
      beq_iff_eq, List.all_eq_true] at hs
    obtain ⟨⟨hap, hval⟩, himg⟩ := hs
    have hb := (CaseRange.has_iff e _).mp hhas
    have hvalid : m.isValidChar := by
      unfold Nat.isValidChar
      omega
    refine ⟨m, rfl, toNat_ofNat_of_valid m hvalid, ?_⟩
    rcases himg with himg | himg
    · right
      refine ⟨by omega, ?_⟩
      apply lowerOf_none
      intro f hf
      rw [hm]
      exact CaseRange.apart_sound e f _ hhas (hap f hf)
    · left
      omega

theorem unicode_ToLower_idem (c : Char) :
    unicode_ToLower (unicode_ToLower c) = unicode_ToLower c := by
  by_cases hc : c.toNat ≤ 127
  · have h1 : unicode_ToLower c = c.toLower := by simp [unicode_ToLower, hc]
    have h2 : c.toLower.toNat ≤ 127 := by
      rcases toLower_cases c with ⟨h, _⟩ | ⟨_, _, h3⟩
      · rw [h]; exact hc
      · omega
    rw [h1]
    simp only [unicode_ToLower, h2, if_true]
    exact toLower_toLower c
  · rcases unicode_ToLower_cases c hc with ⟨_, h⟩ | ⟨m, h, hm, hcase⟩
    · rw [h, h]
    · rw [h]
      rcases hcase with ⟨h1, h2⟩ | ⟨h1, h2⟩
      · have hle : (Char.ofNat m).toNat ≤ 127 := by omega
        simp only [unicode_ToLower, hle, if_true]
        rcases toLower_cases (Char.ofNat m) with ⟨hk, _⟩ | ⟨h3, h4, _⟩
        · exact hk
        · omega
      · have hgt : ¬ (Char.ofNat m).toNat ≤ 127 := by omega
        have hgt2 : ¬ m ≤ 127 := by omega
        simp only [unicode_ToLower, hm, h2, hgt2, if_false]

theorem unicode_ToLower_eq_colon (c : Char) : unicode_ToLower c = ':' ↔ c = ':' := by
  have h58 : (':' : Char).toNat = 58 := rfl
  by_cases hc : c.toNat ≤ 127
  · have h1 : unicode_ToLower c = c.toLower := by simp [unicode_ToLower, hc]
    rw [h1]
    exact toLower_eq_colon c
  · constructor
    · intro h
      exfalso
      rcases unicode_ToLower_cases c hc with ⟨_, hk⟩ | ⟨m, hk, hm, hcase⟩
      · rw [hk] at h
        rw [h] at hc
        exact hc (by decide)
      · rw [hk] at h
        rw [h] at hm
        omega
    · intro h
      rw [h] at hc
      exact absurd (by decide) hc

theorem unicode_ToLower_not_isUpper (c : Char) : (unicode_ToLower c).isUpper = false := by
  by_cases hc : c.toNat ≤ 127
  · have h1 : unicode_ToLower c = c.toLower := by simp [unicode_ToLower, hc]
    rw [h1]
    exact toLower_not_isUpper c
  · cases hu : (unicode_ToLower c).isUpper with
    | false => rfl
    | true =>
      exfalso
      have hr := (isUpper_iff _).mp hu
      rcases unicode_ToLower_cases c hc with ⟨_, hk⟩ | ⟨m, hk, hm, hcase⟩
      · rw [hk] at hr; omega
      · rw [hk, hm] at hr; omega

theorem filter_colon_map_toLower (l : List Char) :
    (l.map unicode_ToLower).filter (fun c => c != ':') =
      (l.filter (fun c => c != ':')).map unicode_ToLower := by
  induction l with
  | nil => rfl
  | cons a t ih =>
    by_cases ha : a = ':'
    · subst ha
      have hl : unicode_ToLower ':' = ':' := (unicode_ToLower_eq_colon ':').mpr rfl
      simp [List.filter_cons, hl, ih]
    · have hl : unicode_ToLower a ≠ ':' := fun h => ha ((unicode_ToLower_eq_colon a).mp h)
      simp [List.filter_cons, ha, hl, ih]

theorem parseOldID_data (id : String) :
    (parseOldID id).data = (id.data.filter (fun c => c != ':')).map unicode_ToLower := rfl

/-- C5, the claim refuted: the upper-case letter U+2102 (double-struck capital
C, category Lu) has no lower-case form, so `parseOldID` keeps it and the
result contains an upper-case letter. -/
theorem parseOldID_uppercase_counterexample :
    parseOldID "ℂ" = "ℂ" ∧
    Char.ofNat 8450 ∈ (parseOldID "ℂ").data ∧
    unicode_IsUpper (Char.ofNat 8450) = true := by
  decide

/-- C5 as amended: `parseOldID id` is the lower-case form of `id`
(`strings.ToLower`) with every `:` removed, in either order of the two
operations; the result contains no `:` and no character that lower-casing
changes, so no letter that has a lower-case form of its own and none of
`A`..`Z`; `parseOldID "AA:BB:CC" = "aabbcc"`, and letters outside ASCII are
lower-cased too. -/
theorem parseOldID_lowercase_no_colon (id : String) :
    parseOldID id = strings_Replace_colon (strings_ToLower id) ∧
    (parseOldID id).data = (id.data.filter (fun c => c != ':')).map unicode_ToLower ∧
    ':' ∉ (parseOldID id).data ∧
    (∀ c ∈ (parseOldID id).data, unicode_ToLower c = c ∧ c.isUpper = false) ∧
    parseOldID "AA:BB:CC" = "aabbcc" ∧
    parseOldID "ÄÖ:Éé" = "äöéé" := by
  refine ⟨?_, rfl, ?_, ?_, by decide, by decide⟩
  · exact congrArg String.mk (filter_colon_map_toLower id.data).symm
  · rw [parseOldID_data]
    intro h
    obtain ⟨a, ha, hc⟩ := List.mem_map.mp h
    have hcol : a = ':' := (unicode_ToLower_eq_colon a).mp hc
    rw [List.mem_filter] at ha
    simp [hcol] at ha
  · intro c hc
    rw [parseOldID_data] at hc
    obtain ⟨a, _, rfl⟩ := List.mem_map.mp hc
    exact ⟨unicode_ToLower_idem a, unicode_ToLower_not_isUpper a⟩

/-- C6: normalization is idempotent, `parseOldID (parseOldID x) = parseOldID x`. -/
theorem parseOldID_idempotent (x : String) : parseOldID (parseOldID x) = parseOldID x := by
  have hm : (unicode_ToLower ∘ unicode_ToLower) = unicode_ToLower := by
    funext c; exact unicode_ToLower_idem c
  apply congrArg String.mk
  show (List.filter (fun c => c != ':') (parseOldID x).data).map unicode_ToLower = _
  rw [parseOldID_data, filter_colon_map_toLower, List.filter_filter, List.map_map, hm]
  simp only [Bool.and_self]
  rfl

/-! ## The relay operation `setAndPublish` -/

theorem setAndPublish_publish_fails (r : Redis) (key data e : String)
    (h : r.fault r.calls.length = some e) :
    setAndPublish r key data =
      (some e, { r with calls := r.calls ++ [.publish key data (some e)] }) := by
  simp [setAndPublish, Redis.Publish, h]

theorem setAndPublish_set_fails (r : Redis) (key data e : String)
    (h1 : r.fault r.calls.length = none) (h2 : r.fault (r.calls.length + 1) = some e) :
    setAndPublish r key data =
      (some e, { r with published := r.published ++ [(key, data)],
                        calls := r.calls ++ [.publish key data none, .set key data (some e)] }) := by
  simp [setAndPublish, Redis.Publish, Redis.Set, h1, h2]

theorem setAndPublish_succeeds (r : Redis) (key data : String)
    (h1 : r.fault r.calls.length = none) (h2 : r.fault (r.calls.length + 1) = none) :
    setAndPublish r key data =
      (none, { r with kv := fun k => if k = key then some data else r.kv k,
                      published := r.published ++ [(key, data)],
                      calls := r.calls ++ [.publish key data none, .set key data none] }) := by
  simp [setAndPublish, Redis.Publish, Redis.Set, h1, h2]

/-- The three possible runs of `setAndPublish`, by the outcome of the next
two Redis commands. -/
theorem setAndPublish_cases (r : Redis) (key data : String) :
    (∃ e, r.fault r.calls.length = some e ∧
      setAndPublish r key data =
        (some e, { r with calls := r.calls ++ [.publish key data (some e)] })) ∨
    (∃ e, r.fault r.calls.length = none ∧ r.fault (r.calls.length + 1) = some e ∧
      setAndPublish r key data =
        (some e, { r with published := r.published ++ [(key, data)],
                          calls := r.calls ++
                            [.publish key data none, .set key data (some e)] })) ∨
    (r.fault r.calls.length = none ∧ r.fault (r.calls.length + 1) = none ∧
      setAndPublish r key data =
        (none, { r with kv := fun k => if k = key then some data else r.kv k,
                        published := r.published ++ [(key, data)],
                        calls := r.calls ++
                          [.publish key data none, .set key data none] })) := by
  cases h1 : r.fault r.calls.length with
  | some e => exact Or.inl ⟨e, rfl, setAndPublish_publish_fails r key data e h1⟩
  | none =>
    cases h2 : r.fault (r.calls.length + 1) with
    | some e => exact Or.inr (Or.inl ⟨e, rfl, rfl, setAndPublish_set_fails r key data e h1 h2⟩)
    | none => exact Or.inr (Or.inr ⟨rfl, rfl, setAndPublish_succeeds r key data h1 h2⟩)

/-- C7: `setAndPublish key payload` first publishes the payload on the channel
named `key`; when the publish fails, no store command is sent, nothing is
delivered or stored and the publish error is returned; when the publish
succeeds the same payload is then stored at the same key, and a failure of the
store is returned; the result is no error exactly when both commands
succeed. -/
theorem setAndPublish_contract (r : Redis) (key payload : String) :
    (∀ e, r.fault r.calls.length = some e →
      (setAndPublish r key payload).1 = some e ∧
      (setAndPublish r key payload).2.calls =
        r.calls ++ [.publish key payload (some e)] ∧
      (setAndPublish r key payload).2.published = r.published ∧
      (setAndPublish r key payload).2.kv = r.kv) ∧
    (∀ e, r.fault r.calls.length = none → r.fault (r.calls.length + 1) = some e →
      (setAndPublish r key payload).1 = some e ∧
      (setAndPublish r key payload).2.calls =
        r.calls ++ [.publish key payload none, .set key payload (some e)] ∧
      (setAndPublish r key payload).2.published = r.published ++ [(key, payload)] ∧
      (setAndPublish r key payload).2.kv = r.kv) ∧
    (r.fault r.calls.length = none → r.fault (r.calls.length + 1) = none →
      (setAndPublish r key payload).1 = none ∧
      (setAndPublish r key payload).2.calls =
        r.calls ++ [.publish key payload none, .set key payload none] ∧
      (setAndPublish r key payload).2.published = r.published ++ [(key, payload)] ∧
      (setAndPublish r key payload).2.kv key = some payload ∧
      (∀ k, k ≠ key → (setAndPublish r key payload).2.kv k = r.kv k)) ∧
    ((setAndPublish r key payload).1 = none ↔
      (r.fault r.calls.length = none ∧ r.fault (r.calls.length + 1) = none)) := by
  refine ⟨?_, ?_, ?_, ?_⟩
  · intro e h
    rw [setAndPublish_publish_fails r key payload e h]
    exact ⟨rfl, rfl, rfl, rfl⟩
  · intro e h1 h2
    rw [setAndPublish_set_fails r key payload e h1 h2]
    exact ⟨rfl, rfl, rfl, rfl⟩
  · intro h1 h2
    rw [setAndPublish_succeeds r key payload h1 h2]
    refine ⟨rfl, rfl, rfl, ?_, ?_⟩
    · simp
    · intro k hk
      simp [hk]
  · rcases setAndPublish_cases r key payload with ⟨e, h, heq⟩ | ⟨e, h1, h2, heq⟩ | ⟨h1, h2, heq⟩
    · rw [heq]; simp [h]
    · rw [heq]; simp [h1, h2]
    · rw [heq]; simp [h1, h2]

/-- C7 at concrete servers: with no failing command the relay of payload `"v"`
under key `"k"` returns no error, publishes, then stores; when the first
command fails only the publish is sent; when the second fails the publish was
delivered and the store error is returned. -/
theorem setAndPublish_contract_witness :
    ((setAndPublish Redis.sample "k" "v").1 = none ∧
      (setAndPublish Redis.sample "k" "v").2.calls =
        Redis.sample.calls ++ [.publish "k" "v" none, .set "k" "v" none] ∧
      (setAndPublish Redis.sample "k" "v").2.published =
        Redis.sample.published ++ [("k", "v")] ∧
      (setAndPublish Redis.sample "k" "v").2.kv "k" = some "v" ∧
      (∀ k, k ≠ "k" → (setAndPublish Redis.sample "k" "v").2.kv k = Redis.sample.kv k)) ∧
    ((setAndPublish (Redis.failing 0) "k" "v").1 = some "connection refused" ∧
      (setAndPublish (Redis.failing 0) "k" "v").2.calls =
        (Redis.failing 0).calls ++ [.publish "k" "v" (some "connection refused")] ∧
      (setAndPublish (Redis.failing 0) "k" "v").2.published = (Redis.failing 0).published ∧
      (setAndPublish (Redis.failing 0) "k" "v").2.kv = (Redis.failing 0).kv) ∧
    ((setAndPublish (Redis.failing 1) "k" "v").1 = some "connection refused" ∧
      (setAndPublish (Redis.failing 1) "k" "v").2.calls =
        (Redis.failing 1).calls ++
          [.publish "k" "v" none, .set "k" "v" (some "connection refused")] ∧
      (setAndPublish (Redis.failing 1) "k" "v").2.published =
        (Redis.failing 1).published ++ [("k", "v")] ∧
      (setAndPublish (Redis.failing 1) "k" "v").2.kv = (Redis.failing 1).kv) :=
  ⟨(setAndPublish_contract Redis.sample "k" "v").2.2.1 rfl rfl,
   (setAndPublish_contract (Redis.failing 0) "k" "v").1 "connection refused" rfl,
   (setAndPublish_contract (Redis.failing 1) "k" "v").2.1 "connection refused" rfl rfl⟩

/-! ## Timestamps -/

theorem toInt64_of_range (n : Int) (h1 : -9223372036854775808 ≤ n)
    (h2 : n < 9223372036854775808) : toInt64 n = n := by
  unfold toInt64; omega

theorem toInt64_range (n : Int) :
    -9223372036854775808 ≤ toInt64 n ∧ toInt64 n < 9223372036854775808 := by
  unfold toInt64; omega

theorem tdiv_million (a : Int) :
    (0 ≤ a ∧ Int.tdiv a 1000000 = a / 1000000) ∨
    (a < 0 ∧ Int.tdiv a 1000000 = -((-a) / 1000000)) := by
  by_cases h : 0 ≤ a
  · exact Or.inl ⟨h, Int.tdiv_eq_ediv h (by decide)⟩
  · right
    refine ⟨by omega, ?_⟩
    have h2 : Int.tdiv (-a) 1000000 = (-a) / 1000000 := Int.tdiv_eq_ediv (by omega) (by decide)
    rw [← h2, Int.neg_tdiv, neg_neg]

/-- A millisecond timestamp is far inside the `int64` range. -/
theorem timestampAt_range (now : Nat → Int) (k : Nat) :
    -9223372036855 ≤ timestampAt now k ∧ timestampAt now k ≤ 9223372036855 := by
  unfold timestampAt int64_div time_Millisecond
  have hr := toInt64_range (now k)
  rcases tdiv_million (toInt64 (now k)) with ⟨h0, hq⟩ | ⟨h0, hq⟩
  · rw [hq, toInt64_of_range _ (by omega) (by omega)]; omega
  · rw [hq, toInt64_of_range _ (by omega) (by omega)]; omega

/-- The difference of two millisecond timestamps does not overflow. -/
theorem toInt64_sub_timestampAt (now now' : Nat → Int) (i j : Nat) :
    toInt64 (timestampAt now i - timestampAt now' j) = timestampAt now i - timestampAt now' j := by
  have h1 := timestampAt_range now i
  have h2 := timestampAt_range now' j
  exact toInt64_of_range _ (by omega) (by omega)

/-! ## The merge of `handler` -/

theorem mergoField_zero_dst {α : Type} [DecidableEq α] (zero src : α) :
    mergoField zero zero src = src := by
  unfold mergoField
  by_cases h : src = zero
  · simp [h]
  · simp [h]

theorem mergoField_zero_src {α : Type} [DecidableEq α] (zero dst : α) :
    mergoField zero dst zero = dst := by
  simp [mergoField]

/-- The record `device` of `handler` after `mergo.Merge`: the identity fields
of the destination and the metric fields of the stub. -/
theorem mergo_Merge_handler (x : Env) (data : Measurement) (address addressOld name : String)
    (ping timestamp : Int) :
    mergo_Merge (handlerIdentity address addressOld name) (handlerStub x data ping timestamp) =
      { ID := address, OldID := addressOld, Name := name, Ping := ping,
        Format := data.Format, Humidity := data.Humidity, Temperature := data.Temperature,
        Pressure := (data.Pressure : ℚ) / 100, Timestamp := timestamp,
        TimestampZ := x.formatRFC3339 (int64_div timestamp 1000),
        Acceleration :=
          { X := data.AccelerationX, Y := data.AccelerationY, Z := data.AccelerationZ },
        Battery := data.BatteryVoltage } := by
  simp only [mergo_Merge, handlerIdentity, handlerStub, Device.zero, mergoField_zero_dst,
    mergoField_zero_src]

/-- What `handler` has done when it returns. -/
theorem handler_done (x : Env) (w w' : World) (data : Measurement) (d : Device)
    (h : handler x w data = (.done d, w')) :
    ∃ ping name,
      handlerPing w.Cache data.DeviceID (timestampAt w.now w.reads) = .done ping ∧
      handlerName w.Cache data.DeviceID = .done name ∧
      d = mergo_Merge (handlerIdentity data.DeviceID (parseOldID data.DeviceID) name)
            (handlerStub x data ping (timestampAt w.now w.reads)) ∧
      w'.Cache = (w.Cache.Set (x.Device ++ data.DeviceID) (.Device d)).Set
            ("lastTimestamp:" ++ data.DeviceID) (.int64 (timestampAt w.now w.reads)) ∧
      w'.now = w.now ∧ w'.reads = w.reads + 1 ∧ w'.config = w.config := by
  unfold handler at h
  simp only [makeTimestamp] at h
  cases hp : handlerPing w.Cache data.DeviceID (timestampAt w.now w.reads) with
  | panic e => simp [hp] at h
  | done ping =>
    cases hn : handlerName w.Cache data.DeviceID with
    | panic e => simp [hp, hn] at h
    | done name =>
      simp only [hp, hn] at h
      split at h
      · simp at h
      · simp only [Prod.mk.injEq, Outcome.done.injEq] at h
        obtain ⟨hd, hw⟩ := h
        subst hw
        refine ⟨ping, name, rfl, rfl, hd.symm, ?_, rfl, rfl, rfl⟩
        simp only [hd]

/-- When the cached items of the device have the expected types and the two
Redis commands of the relay succeed, `handler` returns. -/
theorem handler_returns (x : Env) (w : World) (data : Measurement)
    (hts : ∀ v, w.Cache.Get ("lastTimestamp:" ++ data.DeviceID) = some v → ∃ n, v = .int64 n)
    (hname : ∀ v, w.Cache.Get ("name:" ++ data.DeviceID) = some v → ∃ s, v = .string s)
    (h1 : w.rdb.fault w.rdb.calls.length = none)
    (h2 : w.rdb.fault (w.rdb.calls.length + 1) = none) :
    ∃ d w', handler x w data = (.done d, w') := by
  unfold handler
  simp only [makeTimestamp]
  have hp : ∃ ping, handlerPing w.Cache data.DeviceID (timestampAt w.now w.reads) = .done ping := by
    unfold handlerPing
    cases hc : w.Cache.Get ("lastTimestamp:" ++ data.DeviceID) with
    | none => exact ⟨0, rfl⟩
    | some v =>
      obtain ⟨n, rfl⟩ := hts v hc
      exact ⟨_, rfl⟩
  have hn : ∃ name, handlerName w.Cache data.DeviceID = .done name := by
    unfold handlerName
    cases hc : w.Cache.Get ("name:" ++ data.DeviceID) with
    | none => exact ⟨"", rfl⟩
    | some v =>
      obtain ⟨s, rfl⟩ := hname v hc
      exact ⟨_, rfl⟩
  obtain ⟨ping, hp⟩ := hp
  obtain ⟨name, hn⟩ := hn
  simp only [hp, hn]
  rw [setAndPublish_succeeds _ _ _ h1 h2]
  exact ⟨_, _, rfl⟩

/-! ## Units and identity of the produced state -/

/-- C9: in exact arithmetic the state `handler` produces has the raw pressure
(hundredths of hPa) divided by 100 and the raw battery reading (millivolts)
divided by 1000; for the device `AA:BB:CC:DD:EE:FF` with raw pressure 101325
and battery 3000 mV and no cache entry, when the relay succeeds, `handler`
produces a state with normalized id `aabbccddeeff`, ping 0, pressure 1013.25
and battery 3.0. -/
theorem handler_units (x : Env) (w : World) (data : Measurement) :
    (∀ d w', handler x w data = (.done d, w') →
      d.Pressure = (data.Pressure : ℚ) / 100 ∧
      d.Battery = (data.batteryMillivolts : ℚ) / 1000) ∧
    (data.DeviceID = "AA:BB:CC:DD:EE:FF" → data.Pressure = 101325 →
      data.batteryMillivolts = 3000 →
      w.Cache.Get ("lastTimestamp:" ++ data.DeviceID) = none →
      w.Cache.Get ("name:" ++ data.DeviceID) = none →
      w.rdb.fault w.rdb.calls.length = none →
      w.rdb.fault (w.rdb.calls.length + 1) = none →
      ∃ d w', handler x w data = (.done d, w') ∧
        d.OldID = "aabbccddeeff" ∧ d.Ping = 0 ∧ d.Pressure = 1013.25 ∧
        d.Battery = 3) := by
  have hgen : ∀ d w', handler x w data = (.done d, w') →
      d.Pressure = (data.Pressure : ℚ) / 100 ∧
      d.Battery = (data.batteryMillivolts : ℚ) / 1000 := by
    intro d w' h
    obtain ⟨ping, name, _, _, hd, _⟩ := handler_done x w w' data d h
    rw [mergo_Merge_handler] at hd
    subst hd
    exact ⟨rfl, rfl⟩
  refine ⟨hgen, ?_⟩
  intro hid hpr hbat hts hname h1 h2
  obtain ⟨d, w', h⟩ := handler_returns x w data
    (by intro v hv; rw [hts] at hv; cases hv)
    (by intro v hv; rw [hname] at hv; cases hv) h1 h2
  obtain ⟨hP, hB⟩ := hgen d w' h
  obtain ⟨ping, name, hp, _, hd, _⟩ := handler_done x w w' data d h
  rw [mergo_Merge_handler] at hd
  refine ⟨d, w', h, ?_, ?_, ?_, ?_⟩
  · rw [hd, hid]
    show parseOldID "AA:BB:CC:DD:EE:FF" = "aabbccddeeff"
    decide
  · simp only [handlerPing, hts] at hp
    rw [hd]
    simp only [Outcome.done.injEq] at hp
    exact hp.symm
  · rw [hP, hpr]
    norm_num
  · rw [hB, hbat]
    norm_num

/-- C9 at the scenario on a freshly started process: pressure 101325 and a
battery reading of 3000 mV give a state with normalized id `aabbccddeeff`,
ping 0, pressure 1013.25 and battery 3.0. -/
theorem handler_units_witness :
    ∃ d w', handler Env.sample World.fresh Measurement.scenario = (.done d, w') ∧
      d.OldID = "aabbccddeeff" ∧ d.Ping = 0 ∧ d.Pressure = 1013.25 ∧ d.Battery = 3 :=
  (handler_units Env.sample World.fresh Measurement.scenario).2 rfl rfl rfl rfl rfl rfl rfl

/-- C4: while a non-empty display name is cached for the device of a
measurement, merging the metric stub, whose name is empty, into the identity
record leaves the name equal to the cached name and non-empty, and leaves the
id and the normalized id equal to the raw device id and `parseOldID` of it;
this is the state `handler` produces, and `handler` does produce it when the
cached timestamp is well-typed and the relay succeeds. -/
theorem handler_merge_keeps_identity (x : Env) (w : World) (data : Measurement)
    (name : String)
    (hname : w.Cache.Get ("name:" ++ data.DeviceID) = some (.string name))
    (hne : name ≠ "") :
    (∀ ping timestamp,
      (handlerStub x data ping timestamp).Name = "" ∧
      (mergo_Merge (handlerIdentity data.DeviceID (parseOldID data.DeviceID) name)
        (handlerStub x data ping timestamp)).Name = name ∧
      (mergo_Merge (handlerIdentity data.DeviceID (parseOldID data.DeviceID) name)
        (handlerStub x data ping timestamp)).ID = data.DeviceID ∧
      (mergo_Merge (handlerIdentity data.DeviceID (parseOldID data.DeviceID) name)
        (handlerStub x data ping timestamp)).OldID = parseOldID data.DeviceID) ∧
    (∀ d w', handler x w data = (.done d, w') →
      d.Name = name ∧ d.Name ≠ "" ∧ d.ID = data.DeviceID ∧
      d.OldID = parseOldID data.DeviceID) ∧
    ((∀ v, w.Cache.Get ("lastTimestamp:" ++ data.DeviceID) = some v → ∃ n, v = .int64 n) →
      w.rdb.fault w.rdb.calls.length = none →
      w.rdb.fault (w.rdb.calls.length + 1) = none →
      ∃ d w', handler x w data = (.done d, w')) := by
  refine ⟨?_, ?_, ?_⟩
  · intro ping timestamp
    rw [mergo_Merge_handler]
    exact ⟨rfl, rfl, rfl, rfl⟩
  · intro d w' h
    obtain ⟨ping, name', _, hn, hd, _⟩ := handler_done x w w' data d h
    simp only [handlerName, hname, assertString, Outcome.done.injEq] at hn
    subst hn
    rw [mergo_Merge_handler] at hd
    subst hd
    exact ⟨rfl, hne, rfl, rfl⟩
  · intro hts h1 h2
    exact handler_returns x w data hts
      (by intro v hv; rw [hname] at hv; exact ⟨name, (Option.some.inj hv).symm⟩) h1 h2

/-- C4 on a process that has cached the name `Sauna` for the device of the
scenario: the produced state is named `Sauna` and keeps its two ids. -/
theorem handler_merge_keeps_identity_witness :
    ∃ d w', handler Env.sample World.named Measurement.scenario = (.done d, w') ∧
      d.Name = "Sauna" ∧ d.Name ≠ "" ∧ d.ID = "AA:BB:CC:DD:EE:FF" ∧
      d.OldID = "aabbccddeeff" :=
  ⟨_, _, rfl,
    (handler_merge_keeps_identity Env.sample World.named Measurement.scenario "Sauna"
      (by decide) (by decide)).2.1 _ _ rfl⟩

/-! ## Cache keys -/

theorem append_left_cancel (p a b : String) (h : p ++ a = p ++ b) : a = b := by
  have hd : (p ++ a).data = (p ++ b).data := congrArg String.data h
  rw [String.data_append, String.data_append] at hd
  exact String.ext (List.append_cancel_left hd)

/-- A key of the display-name family is never a key of the timestamp family. -/
theorem name_key_ne_timestamp_key (a b : String) : "name:" ++ a ≠ "lastTimestamp:" ++ b := by
  intro h
  have hd : ("name:" ++ a).data = ("lastTimestamp:" ++ b).data := congrArg String.data h
  rw [String.data_append, String.data_append] at hd
  have hh := congrArg List.head? hd
  simp at hh

theorem Cache.get_set_self (c : Cache) (k : String) (v : CacheItem) :
    (c.Set k v).Get k = some v := by
  simp [Cache.Get, Cache.Set]

theorem Cache.get_set_of_ne (c : Cache) (k k' : String) (v : CacheItem) (h : k' ≠ k) :
    (c.Set k v).Get k' = c.Get k' := by
  simp [Cache.Get, Cache.Set, h]

/-! ## Frame properties of the two loops -/

/-- The loop of `loadConfigs` writes only display-name keys of listed ids. -/
theorem loadConfigsLoop_other_keys (x : Env) (cfg : List JsonDevice) :
    ∀ (c : Cache) (k : String), (∀ e ∈ cfg, k ≠ "name:" ++ e.ID) →
      (loadConfigsLoop x cfg c).2.Get k = c.Get k := by
  induction cfg with
  | nil => intro c k _; rfl
  | cons e rest ih =>
    intro c k hk
    have hke : k ≠ "name:" ++ e.ID := hk e (List.mem_cons_self _ _)
    have hrest : ∀ e' ∈ rest, k ≠ "name:" ++ e'.ID :=
      fun e' he' => hk e' (List.mem_cons_of_mem _ he')
    have hstep : (c.Set ("name:" ++ e.ID) (.string e.Name)).Get k = c.Get k :=
      Cache.get_set_of_ne c _ k _ hke
    unfold loadConfigsLoop
    simp only
    split
    · split
      · exact hstep
      · rw [ih _ k hrest]; exact hstep
    · rw [ih _ k hrest]; exact hstep

/-- Every timestamp item in the cache after the loop of `loadConfigs` was
there before. -/
theorem loadConfigsLoop_int64 (x : Env) (cfg : List JsonDevice) :
    ∀ (c : Cache) (k : String) (n : Int),
      (loadConfigsLoop x cfg c).2.Get k = some (.int64 n) → c.Get k = some (.int64 n) := by
  induction cfg with
  | nil => intro c k n h; exact h
  | cons e rest ih =>
    intro c k n h
    have hstep : (c.Set ("name:" ++ e.ID) (.string e.Name)).Get k = some (.int64 n) →
        c.Get k = some (.int64 n) := by
      intro h1
      by_cases hk : k = "name:" ++ e.ID
      · subst hk
        rw [Cache.get_set_self] at h1
        cases h1
      · rwa [Cache.get_set_of_ne c _ k _ hk] at h1
    unfold loadConfigsLoop at h
    simp only at h
    split at h
    · split at h
      · exact hstep h
      · exact hstep (ih _ k n h)
    · exact hstep (ih _ k n h)

/-- The loop of `createInserts` leaves the cache, the configuration and the
clock alone and only advances the number of clock readings. -/
theorem createInsertsLoop_frame (x : Env) (cfg : List JsonDevice) :
    ∀ w : World, (createInsertsLoop x cfg w).2.Cache = w.Cache ∧
      (createInsertsLoop x cfg w).2.config = w.config ∧
      (createInsertsLoop x cfg w).2.now = w.now ∧
      w.reads ≤ (createInsertsLoop x cfg w).2.reads := by
  induction cfg with
  | nil => intro w; exact ⟨rfl, rfl, rfl, le_refl _⟩
  | cons sensor rest ih =>
    intro w
    unfold createInsertsLoop
    simp only [makeTimestamp]
    split
    · exact ⟨rfl, rfl, rfl, le_refl _⟩
    · split
      · exact ⟨rfl, rfl, rfl, Nat.le_succ _⟩
      · obtain ⟨h1, h2, h3, h4⟩ := ih
          { Cache := w.Cache, config := w.config,
            rdb := (setAndPublish (w.rdb.Get (x.Device ++ parseOldID sensor.ID)).2
              (insertKey x (timestampAt w.now w.reads) (parseOldID sensor.ID)) ‹String›).2,
            now := w.now, reads := w.reads + 1 }
        exact ⟨h1, h2, h3, Nat.le_of_succ_le h4⟩

/-! ## Ping -/

theorem handler_timestamp (x : Env) (w w' : World) (data : Measurement) (d : Device)
    (h : handler x w data = (.done d, w')) :
    d.Timestamp = timestampAt w.now w.reads ∧
    w'.Cache.Get ("lastTimestamp:" ++ data.DeviceID) =
      some (.int64 (timestampAt w.now w.reads)) := by
  obtain ⟨ping, name, _, _, hd, hc, _⟩ := handler_done x w w' data d h
  refine ⟨?_, ?_⟩
  · rw [hd, mergo_Merge_handler]
  · rw [hc, Cache.get_set_self]

theorem handler_ping_of_timestamp (x : Env) (w w' : World) (data : Measurement) (d : Device)
    (now0 : Nat → Int) (j : Nat)
    (h : handler x w data = (.done d, w'))
    (ht : TimestampIs w.Cache data.DeviceID (timestampAt now0 j)) :
    d.Ping = timestampAt w.now w.reads - timestampAt now0 j := by
  obtain ⟨ping, name, hp, _, hd, _⟩ := handler_done x w w' data d h
  obtain ⟨v, hv, hn⟩ := ht
  rw [hd, mergo_Merge_handler]
  show ping = _
  unfold handlerPing at hp
  rw [hv] at hp
  cases v with
  | int64 n =>
    have hn' := hn n rfl
    subst hn'
    simp only [assertInt64, Outcome.done.injEq] at hp
    rw [← hp]
    exact toInt64_sub_timestampAt _ _ _ _
  | string s => simp [assertInt64] at hp
  | Device d0 => simp [assertInt64] at hp

theorem handler_ping_of_absent (x : Env) (w w' : World) (data : Measurement) (d : Device)
    (hc : w.Cache.Get ("lastTimestamp:" ++ data.DeviceID) = none)
    (h : handler x w data = (.done d, w')) : d.Ping = 0 := by
  obtain ⟨ping, name, hp, _, hd, _⟩ := handler_done x w w' data d h
  rw [hd, mergo_Merge_handler]
  show ping = 0
  simp only [handlerPing, hc, Outcome.done.injEq] at hp
  exact hp.symm

/-- An event that is not a measurement of device `a` does not replace the
timestamp of `a` by another timestamp. -/
theorem step_keeps_timestamp (x : Env) (w w' : World) (e : Event) (r : Option Device)
    (a : String) (t : Int)
    (h : step x w e = (.done r, w'))
    (he : ∀ m, e = .measurement m → m.DeviceID ≠ a)
    (ht : TimestampIs w.Cache a t) : TimestampIs w'.Cache a t := by
  cases e with
  | measurement m =>
    have hma : m.DeviceID ≠ a := he m rfl
    simp only [step] at h
    split at h
    · rename_i d w1 hh
      simp only [Prod.mk.injEq, Outcome.done.injEq] at h
      obtain ⟨_, hw⟩ := h
      subst hw
      obtain ⟨_, _, _, _, _, hc, _⟩ := handler_done x w w1 m d hh
      have hk : "lastTimestamp:" ++ a ≠ "lastTimestamp:" ++ m.DeviceID :=
        fun hEq => hma (append_left_cancel _ _ _ hEq).symm
      unfold TimestampIs
      rw [hc, Cache.get_set_of_ne _ _ _ _ hk]
      by_cases hk2 : "lastTimestamp:" ++ a = x.Device ++ m.DeviceID
      · rw [hk2, Cache.get_set_self]
        exact ⟨_, rfl, fun n hn => by cases hn⟩
      · rw [Cache.get_set_of_ne _ _ _ _ hk2]
        exact ht
    · simp at h
  | loadConfigs file =>
    simp only [step] at h
    split at h
    · rename_i u w1 hh
      simp only [Prod.mk.injEq, Outcome.done.injEq] at h
      obtain ⟨_, hw⟩ := h
      subst hw
      simp only [loadConfigs, Prod.mk.injEq] at hh
      obtain ⟨_, hw⟩ := hh
      subst hw
      unfold TimestampIs
      simp only
      rw [loadConfigsLoop_other_keys x _ _ _
        (fun e _ hEq => name_key_ne_timestamp_key _ _ hEq.symm)]
      exact ht
    · simp at h
  | createInserts =>
    simp only [step] at h
    split at h
    · rename_i u w1 hh
      simp only [Prod.mk.injEq, Outcome.done.injEq] at h
      obtain ⟨_, hw⟩ := h
      subst hw
      have hf := (createInsertsLoop_frame x w.config w).1
      unfold createInserts at hh
      rw [hh] at hf
      unfold TimestampIs
      rw [hf]
      exact ht
    · simp at h

theorem run_keeps_timestamp (x : Env) (a : String) (t : Int) (mid : List Event) :
    ∀ (w w' : World) (ds : List Device),
      run x w mid = (ds, .done (), w') →
      (∀ m, Event.measurement m ∈ mid → m.DeviceID ≠ a) →
      TimestampIs w.Cache a t → TimestampIs w'.Cache a t := by
  induction mid with
  | nil =>
    intro w w' ds h _ ht
    simp only [run, Prod.mk.injEq] at h
    obtain ⟨_, _, hw⟩ := h
    subst hw
    exact ht
  | cons e es ih =>
    intro w w' ds h hm ht
    have hes : ∀ m, Event.measurement m ∈ es → m.DeviceID ≠ a :=
      fun m hmem => hm m (List.mem_cons_of_mem _ hmem)
    have he : ∀ m, e = .measurement m → m.DeviceID ≠ a :=
      fun m hEq => hm m (by rw [hEq]; exact List.mem_cons_self _ _)
    simp only [run] at h
    split at h
    · simp at h
    · rename_i w1 hs
      exact ih w1 w' ds h hes (step_keeps_timestamp x w w1 e none a t hs he ht)
    · rename_i d w1 hs
      simp only [Prod.mk.injEq] at h
      obtain ⟨_, h2⟩ := h
      exact ih w1 w' (run x w1 es).1 (Prod.ext rfl h2) hes
        (step_keeps_timestamp x w w1 e (some d) a t hs he ht)

/-- C2: when `handler` processes a measurement `m1` of a device, then any
events that are not measurements of that device, then a measurement `m2` of
the same device, the ping of the state produced for `m2` is the timestamp of
`m2` minus the timestamp of `m1`, each being the epoch-millisecond value
`handler` read from the clock for that measurement; and for a device without
a last-seen timestamp in the cache the ping of the produced state is 0. -/
theorem handler_ping_consecutive (x : Env) :
    (∀ (w w1 w2 w3 : World) (m1 m2 : Measurement) (d1 d2 : Device) (mid : List Event)
        (ds : List Device),
      handler x w m1 = (.done d1, w1) →
      run x w1 mid = (ds, .done (), w2) →
      (∀ m, Event.measurement m ∈ mid → m.DeviceID ≠ m1.DeviceID) →
      m2.DeviceID = m1.DeviceID →
      handler x w2 m2 = (.done d2, w3) →
      d1.Timestamp = timestampAt w.now w.reads ∧
      d2.Timestamp = timestampAt w2.now w2.reads ∧
      d2.Ping = d2.Timestamp - d1.Timestamp) ∧
    (∀ (w w' : World) (m : Measurement) (d : Device),
      w.Cache.Get ("lastTimestamp:" ++ m.DeviceID) = none →
      handler x w m = (.done d, w') → d.Ping = 0) := by
  refine ⟨?_, ?_⟩
  · intro w w1 w2 w3 m1 m2 d1 d2 mid ds h1 hrun hmid hsame h2
    obtain ⟨ht1, hc1⟩ := handler_timestamp x w w1 m1 d1 h1
    obtain ⟨ht2, _⟩ := handler_timestamp x w2 w3 m2 d2 h2
    have hT1 : TimestampIs w1.Cache m1.DeviceID (timestampAt w.now w.reads) :=
      ⟨_, hc1, fun n hn => by cases hn; rfl⟩
    have hT2 := run_keeps_timestamp x m1.DeviceID _ mid w1 w2 ds hrun hmid hT1
    rw [← hsame] at hT2
    have hp := handler_ping_of_timestamp x w2 w3 m2 d2 w.now w.reads h2 hT2
    exact ⟨ht1, ht2, by rw [hp, ht2, ht1]⟩
  · intro w w' m d hc h
    exact handler_ping_of_absent x w w' m d hc h

/-- C2 on a concrete run: the device of the scenario is measured at 1000 ms,
then another device is measured and the ticker reloads the configuration and
runs the backfill, then the device is measured again at 4000 ms: the second
state has ping 3000. -/
theorem handler_ping_consecutive_witness :
    ∃ d1 ds d2 w3,
      handler Env.sample World.forwards Measurement.scenario = (.done d1, World.afterFirst) ∧
      run Env.sample World.afterFirst Event.between = (ds, .done (), World.afterBetween) ∧
      handler Env.sample World.afterBetween Measurement.scenario = (.done d2, w3) ∧
      d1.Timestamp = 1000 ∧ d2.Timestamp = 4000 ∧
      d2.Ping = d2.Timestamp - d1.Timestamp := by
  have hmid : ∀ m, Event.measurement m ∈ Event.between →
      m.DeviceID ≠ Measurement.scenario.DeviceID := by
    intro m hm
    simp only [Event.between, List.mem_cons, Event.measurement.injEq, List.mem_singleton,
      List.not_mem_nil, or_false] at hm
    rcases hm with rfl | hm | hm
    · decide
    · cases hm
    · cases hm
  exact ⟨_, _, _, _, rfl, rfl, rfl, by decide, by decide,
    ((handler_ping_consecutive Env.sample).1 World.forwards World.afterFirst
      World.afterBetween _ Measurement.scenario Measurement.scenario _ _ Event.between _
      rfl rfl hmid rfl rfl).2.2⟩

/-! ## Sign of the ping -/

/-- C3, the claim refuted: on a process whose clock is set back from 2000 ms
to 1000 ms between two measurements of one device, the two produced states
have pings 0 and -1000. -/
theorem ping_negative_counterexample :
    (run Env.sample World.backwards
        [.measurement Measurement.scenario, .measurement Measurement.scenario]).1.map
      Device.Ping = [0, -1000] ∧
    ¬ (∀ d ∈ (run Env.sample World.backwards
        [.measurement Measurement.scenario, .measurement Measurement.scenario]).1,
      0 ≤ d.Ping) := by
  have h : (run Env.sample World.backwards
        [.measurement Measurement.scenario, .measurement Measurement.scenario]).1.map
      Device.Ping = [0, -1000] := by decide
  refine ⟨h, ?_⟩
  intro hall
  have hmem : (-1000 : Int) ∈ (run Env.sample World.backwards
        [.measurement Measurement.scenario, .measurement Measurement.scenario]).1.map
      Device.Ping := by rw [h]; simp
  obtain ⟨d, hd, hp⟩ := List.mem_map.mp hmem
  have h0 := hall d hd
  omega

theorem init_clockInv (kv : String → Option String) (fault : Nat → Option String)
    (now : Nat → Int) : ClockInv now (World.init kv fault now) :=
  ⟨rfl, fun k n h => by simp [World.init, Cache.Get, Cache.New] at h⟩

/-- On a clock that is never set back, `handler` produces a non-negative ping
and keeps the cache invariant. -/
theorem handler_clockInv (x : Env) (now : Nat → Int) (w w' : World) (data : Measurement)
    (d : Device)
    (hmono : ∀ i j, i ≤ j → timestampAt now i ≤ timestampAt now j)
    (h : handler x w data = (.done d, w')) (hinv : ClockInv now w) :
    0 ≤ d.Ping ∧ ClockInv now w' := by
  obtain ⟨hnow, hitems⟩ := hinv
  obtain ⟨ping, name, hp, _, hd, hc, hn, hr, _⟩ := handler_done x w w' data d h
  refine ⟨?_, ?_, ?_⟩
  · cases hget : w.Cache.Get ("lastTimestamp:" ++ data.DeviceID) with
    | none => rw [handler_ping_of_absent x w w' data d hget h]
    | some v =>
      cases v with
      | int64 n =>
        obtain ⟨j, hj, hnj⟩ := hitems _ n hget
        have hT : TimestampIs w.Cache data.DeviceID (timestampAt now j) :=
          ⟨_, hget, fun n' hn' => by cases hn'; exact hnj⟩
        rw [handler_ping_of_timestamp x w w' data d now j h hT, hnow]
        have := hmono j w.reads (Nat.le_of_lt hj)
        omega
      | string s => simp [handlerPing, hget, assertInt64] at hp
      | Device d0 => simp [handlerPing, hget, assertInt64] at hp
  · rw [hn, hnow]
  · intro k n hk
    rw [hc, hr] at *
    by_cases hk1 : k = "lastTimestamp:" ++ data.DeviceID
    · rw [hk1, Cache.get_set_self] at hk
      simp only [Option.some.injEq, CacheItem.int64.injEq] at hk
      exact ⟨w.reads, Nat.lt_succ_self _, by rw [← hk, hnow]⟩
    · rw [Cache.get_set_of_ne _ _ _ _ hk1] at hk
      by_cases hk2 : k = x.Device ++ data.DeviceID
      · rw [hk2, Cache.get_set_self] at hk
        cases hk
      · rw [Cache.get_set_of_ne _ _ _ _ hk2] at hk
        obtain ⟨j, hj, hnj⟩ := hitems k n hk
        exact ⟨j, Nat.lt_succ_of_lt hj, hnj⟩

theorem step_clockInv (x : Env) (now : Nat → Int) (w w' : World) (e : Event)
    (r : Option Device)
    (hmono : ∀ i j, i ≤ j → timestampAt now i ≤ timestampAt now j)
    (h : step x w e = (.done r, w')) (hinv : ClockInv now w) :
    (∀ d, r = some d → 0 ≤ d.Ping) ∧ ClockInv now w' := by
  cases e with
  | measurement m =>
    simp only [step] at h
    split at h
    · rename_i d w1 hh
      simp only [Prod.mk.injEq, Outcome.done.injEq] at h
      obtain ⟨hr, hw⟩ := h
      subst hw
      obtain ⟨hp, hi⟩ := handler_clockInv x now w w1 m d hmono hh hinv
      refine ⟨?_, hi⟩
      intro d0 hd0
      rw [← hr] at hd0
      cases hd0
      exact hp
    · simp at h
  | loadConfigs file =>
    simp only [step] at h
    split at h
    · rename_i u w1 hh
      simp only [Prod.mk.injEq, Outcome.done.injEq] at h
      obtain ⟨hr, hw⟩ := h
      subst hw
      simp only [loadConfigs, Prod.mk.injEq] at hh
      obtain ⟨_, hw⟩ := hh
      subst hw
      refine ⟨?_, hinv.1, ?_⟩
      · intro d0 hd0
        rw [← hr] at hd0
        cases hd0
      · intro k n hk
        exact hinv.2 k n (loadConfigsLoop_int64 x _ _ k n hk)
    · simp at h
  | createInserts =>
    simp only [step] at h
    split at h
    · rename_i u w1 hh
      simp only [Prod.mk.injEq, Outcome.done.injEq] at h
      obtain ⟨hr, hw⟩ := h
      subst hw
      obtain ⟨hf1, _, hf3, hf4⟩ := createInsertsLoop_frame x w.config w
      unfold createInserts at hh
      rw [hh] at hf1 hf3 hf4
      refine ⟨?_, ?_, ?_⟩
      · intro d0 hd0
        rw [← hr] at hd0
        cases hd0
      · rw [hf3]; exact hinv.1
      · intro k n hk
        rw [hf1] at hk
        obtain ⟨j, hj, hnj⟩ := hinv.2 k n hk
        exact ⟨j, Nat.lt_of_lt_of_le hj hf4, hnj⟩
    · simp at h

theorem run_clockInv (x : Env) (now : Nat → Int)
    (hmono : ∀ i j, i ≤ j → timestampAt now i ≤ timestampAt now j) (events : List Event) :
    ∀ w : World, ClockInv now w → ∀ d ∈ (run x w events).1, 0 ≤ d.Ping := by
  induction events with
  | nil =>
    intro w _ d hd
    simp [run] at hd
  | cons e es ih =>
    intro w hinv d hd
    simp only [run] at hd
    split at hd
    · simp at hd
    · rename_i w1 hs
      exact ih w1 (step_clockInv x now w w1 e none hmono hs hinv).2 d hd
    · rename_i d1 w1 hs
      obtain ⟨hp, hi⟩ := step_clockInv x now w w1 e (some d1) hmono hs hinv
      simp only [List.mem_cons] at hd
      rcases hd with rfl | hd
      · exact hp d rfl
      · exact ih w1 hi d hd

/-- C3 as amended: from process start, for every sequence of measurements and
ticker events and every sequence of clock readings whose millisecond values
never decrease, the ping of every produced device state is at least 0. -/
theorem run_ping_nonneg (x : Env) (kv : String → Option String)
    (fault : Nat → Option String) (now : Nat → Int) (events : List Event)
    (hmono : ∀ i j, i ≤ j → timestampAt now i ≤ timestampAt now j) :
    ∀ d ∈ (run x (World.init kv fault now) events).1, 0 ≤ d.Ping :=
  run_clockInv x now hmono events _ (init_clockInv kv fault now)

/-- C3 as amended, on the clock that reads 1000 ms and then 4000 ms: the run
of two measurements of one device produces two states, with pings 0 and
3000. -/
theorem run_ping_nonneg_witness :
    (run Env.sample World.forwards
        [.measurement Measurement.scenario, .measurement Measurement.scenario]).1.map
      Device.Ping = [0, 3000] ∧
    ∀ d ∈ (run Env.sample World.forwards
        [.measurement Measurement.scenario, .measurement Measurement.scenario]).1,
      0 ≤ d.Ping := by
  refine ⟨by decide, ?_⟩
  refine run_ping_nonneg Env.sample (fun _ => none) (fun _ => none)
    (fun k => if k = 0 then 1000000000 else 4000000000)
    [.measurement Measurement.scenario, .measurement Measurement.scenario] ?_
  intro i j hij
  by_cases hi : i = 0
  · by_cases hj : j = 0
    · simp [timestampAt, hi, hj]
    · simp only [timestampAt, hi, hj, if_true, if_false]
      decide
  · have hj : j ≠ 0 := by omega
    simp [timestampAt, hi, hj]

/-! ## Configuration reload -/

/-- C8, the claim refuted: when the configuration lists an id twice, first
with the name `Sauna` and then with `Attic`, the name entry after the reload
holds `Attic`, not the name `Sauna` configured by the first entry. -/
theorem loadConfigs_duplicate_counterexample :
    (loadConfigs Env.sample World.fresh (some JsonDevice.duplicated)).1 = .done () ∧
    (loadConfigs Env.sample World.fresh (some JsonDevice.duplicated)).2.Cache.Get
      "name:AA:BB:CC:DD:EE:FF" = some (.string "Attic") ∧
    (loadConfigs Env.sample World.fresh (some JsonDevice.duplicated)).2.Cache.Get
      "name:AA:BB:CC:DD:EE:FF" ≠ some (.string "Sauna") := by
  decide

/-- When the device-record keys are disjoint from the display-name keys and
hold device records, the loop of `loadConfigs` does not panic. -/
theorem loadConfigsLoop_done (x : Env) (hx : ∀ a b, x.Device ++ a ≠ "name:" ++ b)
    (cfg : List JsonDevice) :
    ∀ c : Cache,
      (∀ e ∈ cfg, ∀ v, c.Get (x.Device ++ e.ID) = some v → ∃ d, v = .Device d) →
      (loadConfigsLoop x cfg c).1 = .done () := by
  induction cfg with
  | nil => intro c _; rfl
  | cons e rest ih =>
    intro c hty
    have hget : ∀ a, (c.Set ("name:" ++ e.ID) (.string e.Name)).Get (x.Device ++ a) =
        c.Get (x.Device ++ a) := fun a => Cache.get_set_of_ne c _ _ _ (hx a e.ID)
    have hrest : ∀ e' ∈ rest, ∀ v,
        (c.Set ("name:" ++ e.ID) (.string e.Name)).Get (x.Device ++ e'.ID) = some v →
          ∃ d, v = .Device d := by
      intro e' he' v hv
      rw [hget] at hv
      exact hty e' (List.mem_cons_of_mem _ he') v hv
    unfold loadConfigsLoop
    simp only
    split
    · rename_i item hitem
      rw [hget] at hitem
      obtain ⟨d, rfl⟩ := hty e (List.mem_cons_self _ _) item hitem
      simp only [assertDevice]
      exact ih _ hrest
    · exact ih _ hrest

/-- After a loop of `loadConfigs` that does not panic, the name entry of an
id holds the name given by the last entry listed for that id. -/
theorem loadConfigsLoop_name (x : Env) (e : JsonDevice) (post : List JsonDevice)
    (hpost : ∀ e' ∈ post, e'.ID ≠ e.ID) (pre : List JsonDevice) :
    ∀ c : Cache, (loadConfigsLoop x (pre ++ e :: post) c).1 = .done () →
      (loadConfigsLoop x (pre ++ e :: post) c).2.Get ("name:" ++ e.ID) =
        some (.string e.Name) := by
  have hkeys : ∀ e' ∈ post, "name:" ++ e.ID ≠ "name:" ++ e'.ID :=
    fun e' he' hEq => hpost e' he' (append_left_cancel _ _ _ hEq).symm
  induction pre with
  | nil =>
    intro c _
    simp only [List.nil_append]
    unfold loadConfigsLoop
    simp only
    split
    · split
      · exact Cache.get_set_self _ _ _
      · rw [loadConfigsLoop_other_keys x post _ _ hkeys]
        exact Cache.get_set_self _ _ _
    · rw [loadConfigsLoop_other_keys x post _ _ hkeys]
      exact Cache.get_set_self _ _ _
  | cons p pre ih =>
    intro c hdone
    simp only [List.cons_append] at hdone ⊢
    unfold loadConfigsLoop at hdone ⊢
    simp only at hdone ⊢
    split
    · rename_i item hitem
      rw [hitem] at hdone
      simp only at hdone
      split
      · rename_i msg hmsg
        rw [hmsg] at hdone
        simp at hdone
      · rename_i d hd
        rw [hd] at hdone
        exact ih _ hdone
    · rename_i hnone
      rw [hnone] at hdone
      exact ih _ hdone

/-- C8 as amended: when no device-record key is a display-name key and the
cached records of the listed devices are device records, a reload with the
configuration `cfg` returns and changes only display-name entries of listed
devices: the name entry of an id holds the name of the last entry listed for
that id (so the configured name when the id is listed once), and every key of
a full device record, every last-seen timestamp and every other key holds
what it held before. -/
theorem loadConfigs_frame (x : Env) (w : World) (cfg : List JsonDevice)
    (hx : ∀ a b, x.Device ++ a ≠ "name:" ++ b)
    (hty : ∀ e ∈ cfg, ∀ v, w.Cache.Get (x.Device ++ e.ID) = some v → ∃ d, v = .Device d) :
    (loadConfigs x w (some cfg)).1 = .done () ∧
    (loadConfigs x w (some cfg)).2.config = cfg ∧
    (∀ pre e post, cfg = pre ++ e :: post → (∀ e' ∈ post, e'.ID ≠ e.ID) →
      (loadConfigs x w (some cfg)).2.Cache.Get ("name:" ++ e.ID) = some (.string e.Name)) ∧
    (∀ a, (loadConfigs x w (some cfg)).2.Cache.Get (x.Device ++ a) =
      w.Cache.Get (x.Device ++ a)) ∧
    (∀ a, (loadConfigs x w (some cfg)).2.Cache.Get ("lastTimestamp:" ++ a) =
      w.Cache.Get ("lastTimestamp:" ++ a)) ∧
    (∀ k, (∀ e ∈ cfg, k ≠ "name:" ++ e.ID) →
      (loadConfigs x w (some cfg)).2.Cache.Get k = w.Cache.Get k) := by
  have hdone := loadConfigsLoop_done x hx cfg w.Cache hty
  refine ⟨hdone, rfl, ?_, ?_, ?_, ?_⟩
  · intro pre e post hcfg hpost
    subst hcfg
    exact loadConfigsLoop_name x e post hpost pre w.Cache hdone
  · intro a
    exact loadConfigsLoop_other_keys x cfg w.Cache _ (fun e _ => hx a e.ID)
  · intro a
    exact loadConfigsLoop_other_keys x cfg w.Cache _
      (fun e _ hEq => name_key_ne_timestamp_key _ _ hEq.symm)
  · intro k hk
    exact loadConfigsLoop_other_keys x cfg w.Cache k hk

theorem device_key_ne_name_key (a b : String) : "device:" ++ a ≠ "name:" ++ b := by
  intro h
  have hd : ("device:" ++ a).data = ("name:" ++ b).data := congrArg String.data h
  rw [String.data_append, String.data_append] at hd
  have hh := congrArg List.head? hd
  simp at hh

/-- C8 as amended, on the process that has measured the device of the
scenario once: the reload caches both configured names and leaves the cached
record and the last-seen timestamp of the device as they were. -/
theorem loadConfigs_frame_witness :
    (loadConfigs Env.sample World.afterFirst (some JsonDevice.samples)).1 = .done () ∧
    (loadConfigs Env.sample World.afterFirst (some JsonDevice.samples)).2.Cache.Get
      ("name:" ++ "AA:BB:CC:DD:EE:FF") = some (.string "Sauna") ∧
    (loadConfigs Env.sample World.afterFirst (some JsonDevice.samples)).2.Cache.Get
      ("device:" ++ "AA:BB:CC:DD:EE:FF") =
        World.afterFirst.Cache.Get ("device:" ++ "AA:BB:CC:DD:EE:FF") ∧
    (loadConfigs Env.sample World.afterFirst (some JsonDevice.samples)).2.Cache.Get
      ("lastTimestamp:" ++ "AA:BB:CC:DD:EE:FF") = some (.int64 1000) := by
  have hty : ∀ e ∈ JsonDevice.samples, ∀ v,
      World.afterFirst.Cache.Get (Env.sample.Device ++ e.ID) = some v → ∃ d, v = .Device d := by
    intro e he v hv
    simp only [JsonDevice.samples, List.mem_cons, List.mem_singleton, List.not_mem_nil,
      or_false] at he
    rcases he with rfl | rfl
    · have hd : ∃ d, World.afterFirst.Cache.Get
          (Env.sample.Device ++ "AA:BB:CC:DD:EE:FF") = some (.Device d) := ⟨_, rfl⟩
      obtain ⟨d, hd⟩ := hd
      exact ⟨d, Option.some.inj (hv.symm.trans hd)⟩
    · have hn : World.afterFirst.Cache.Get
          (Env.sample.Device ++ "11:22:33:44:55:66") = none := rfl
      rw [hn] at hv
      cases hv
  have h := loadConfigs_frame Env.sample World.afterFirst JsonDevice.samples
    device_key_ne_name_key hty
  refine ⟨h.1, ?_, h.2.2.2.1 "AA:BB:CC:DD:EE:FF", ?_⟩
  · exact h.2.2.1 [] { ID := "AA:BB:CC:DD:EE:FF", Name := "Sauna" }
      [{ ID := "11:22:33:44:55:66", Name := "Attic" }] rfl
      (by intro e he; simp only [List.mem_singleton] at he; subst he; decide)
  · rw [h.2.2.2.2.1 "AA:BB:CC:DD:EE:FF"]
    decide

/-! ## The backfill pass -/

theorem Redis.Get_cases (r : Redis) (key : String) :
    (∃ val, r.kv key = some val ∧ r.fault r.calls.length = none ∧
      r.Get key = (.ok val, { r with calls := r.calls ++ [.get key (some val)] })) ∨
    (∃ e, (r.kv key = none ∨ r.fault r.calls.length ≠ none) ∧
      r.Get key = (.error e, { r with calls := r.calls ++ [.get key none] })) := by
  unfold Redis.Get
  cases hf : r.fault r.calls.length with
  | some e => exact Or.inr ⟨e, Or.inr (by simp), rfl⟩
  | none =>
    cases hk : r.kv key with
    | some val => exact Or.inl ⟨val, rfl, rfl, rfl⟩
    | none => exact Or.inr ⟨_, Or.inl rfl, rfl⟩

/-- The pass ends, without a panic, at the first device whose record cannot
be fetched. -/
theorem createInsertsLoop_get_error (x : Env) (sensor : JsonDevice) (rest : List JsonDevice)
    (w : World) (e : String) (r1 : Redis)
    (hget : w.rdb.Get (x.Device ++ parseOldID sensor.ID) = (.error e, r1)) :
    createInsertsLoop x (sensor :: rest) w = (.done (), { w with rdb := r1 }) := by
  unfold createInsertsLoop
  simp only [hget]

theorem createInsertsLoop_relay_error (x : Env) (sensor : JsonDevice) (rest : List JsonDevice)
    (w : World) (val e : String) (r1 r2 : Redis)
    (hget : w.rdb.Get (x.Device ++ parseOldID sensor.ID) = (.ok val, r1))
    (hrel : setAndPublish r1
      (insertKey x (timestampAt w.now w.reads) (parseOldID sensor.ID)) val = (some e, r2)) :
    createInsertsLoop x (sensor :: rest) w =
      (.panic e, { w with rdb := r2, reads := w.reads + 1 }) := by
  unfold createInsertsLoop
  simp only [hget, makeTimestamp, hrel]

theorem createInsertsLoop_relay_ok (x : Env) (sensor : JsonDevice) (rest : List JsonDevice)
    (w : World) (val : String) (r1 r2 : Redis)
    (hget : w.rdb.Get (x.Device ++ parseOldID sensor.ID) = (.ok val, r1))
    (hrel : setAndPublish r1
      (insertKey x (timestampAt w.now w.reads) (parseOldID sensor.ID)) val = (none, r2)) :
    createInsertsLoop x (sensor :: rest) w =
      createInsertsLoop x rest { w with rdb := r2, reads := w.reads + 1 } := by
  conv => lhs; unfold createInsertsLoop
  simp only [hget, makeTimestamp, hrel]

theorem fetchedBefore_zero (calls : List RedisCall) : fetchedBefore calls 0 = 0 := by
  simp [fetchedBefore]

theorem fetchedBefore_relay (key val k1 d1 k2 d2 : String) (e1 e2 : Option String)
    (rest : List RedisCall) (j : Nat) :
    fetchedBefore (.get key (some val) :: .publish k1 d1 e1 :: .set k2 d2 e2 :: rest) (j + 3) =
      fetchedBefore rest j + 1 := by
  simp [fetchedBefore, List.take, List.filter, RedisCall.fetched]

/-- The commands the loop of `createInserts` adds to the trace.  Every fetch
that returns a value is followed by one clock reading, so the pass takes as
many readings as it has such fetches; every publish and every store comes one
or two commands after the fetch of the live key of a listed device, carries
the value that fetch returned, and uses the insert key of that device at the
clock reading taken right after that fetch. -/
theorem createInsertsLoop_relays (x : Env) (cfg : List JsonDevice) :
    ∀ w : World, ∃ new : List RedisCall,
      (createInsertsLoop x cfg w).2.rdb.calls = w.rdb.calls ++ new ∧
      (createInsertsLoop x cfg w).2.reads = w.reads + fetchedBefore new new.length ∧
      ∀ (i : Nat) (key data : String) (err : Option String),
        (new[i]? = some (.publish key data err) ∨ new[i]? = some (.set key data err)) →
        ∃ sensor ∈ cfg, ∃ j, j < i ∧ i ≤ j + 2 ∧
          new[j]? = some (.get (x.Device ++ parseOldID sensor.ID) (some data)) ∧
          key = insertKey x (timestampAt w.now (w.reads + fetchedBefore new j))
            (parseOldID sensor.ID) := by
  induction cfg with
  | nil =>
    intro w
    refine ⟨[], by simp [createInsertsLoop], by simp [createInsertsLoop, fetchedBefore], ?_⟩
    intro i key data err h
    simp at h
  | cons sensor rest ih =>
    intro w
    rcases Redis.Get_cases w.rdb (x.Device ++ parseOldID sensor.ID) with
      ⟨val, _, _, hget⟩ | ⟨e, _, hget⟩
    · rcases setAndPublish_cases
          { w.rdb with calls := w.rdb.calls ++
              [.get (x.Device ++ parseOldID sensor.ID) (some val)] }
          (insertKey x (timestampAt w.now w.reads) (parseOldID sensor.ID)) val with
        ⟨e, _, hrel⟩ | ⟨e, _, _, hrel⟩ | ⟨_, _, hrel⟩
      · rw [createInsertsLoop_relay_error x sensor rest w val e _ _ hget hrel]
        refine ⟨[.get (x.Device ++ parseOldID sensor.ID) (some val),
          .publish (insertKey x (timestampAt w.now w.reads) (parseOldID sensor.ID)) val
            (some e)], by simp, by simp [fetchedBefore, RedisCall.fetched], ?_⟩
        intro i key data err h
        rcases i with _ | _ | i
        · simp at h
        · simp only [List.getElem?_cons_succ, List.getElem?_cons_zero, Option.some.injEq,
            RedisCall.publish.injEq, reduceCtorEq, or_false] at h
          obtain ⟨hk, hd, _⟩ := h
          exact ⟨sensor, List.mem_cons_self _ _, 0, Nat.zero_lt_one, by omega,
            by simp [hd], by rw [fetchedBefore_zero]; exact hk.symm⟩
        · simp at h
      · rw [createInsertsLoop_relay_error x sensor rest w val e _ _ hget hrel]
        refine ⟨[.get (x.Device ++ parseOldID sensor.ID) (some val),
          .publish (insertKey x (timestampAt w.now w.reads) (parseOldID sensor.ID)) val none,
          .set (insertKey x (timestampAt w.now w.reads) (parseOldID sensor.ID)) val
            (some e)], by simp, by simp [fetchedBefore, RedisCall.fetched], ?_⟩
        intro i key data err h
        rcases i with _ | _ | _ | i
        · simp at h
        · simp only [List.getElem?_cons_succ, List.getElem?_cons_zero, Option.some.injEq,
            RedisCall.publish.injEq, reduceCtorEq, or_false] at h
          obtain ⟨hk, hd, _⟩ := h
          exact ⟨sensor, List.mem_cons_self _ _, 0, Nat.zero_lt_one, by omega,
            by simp [hd], by rw [fetchedBefore_zero]; exact hk.symm⟩
        · simp only [List.getElem?_cons_succ, List.getElem?_cons_zero, Option.some.injEq,
            RedisCall.set.injEq, reduceCtorEq, false_or] at h
          obtain ⟨hk, hd, _⟩ := h
          exact ⟨sensor, List.mem_cons_self _ _, 0, Nat.zero_lt_two, by omega,
            by simp [hd], by rw [fetchedBefore_zero]; exact hk.symm⟩
        · simp at h
      · rw [createInsertsLoop_relay_ok x sensor rest w val _ _ hget hrel]
        obtain ⟨new, hcalls, hreads, hnew⟩ := ih
          { w with
            rdb := { w.rdb with
              kv := fun k =>
                if k = insertKey x (timestampAt w.now w.reads) (parseOldID sensor.ID)
                then some val else w.rdb.kv k,
              published := w.rdb.published ++
                [(insertKey x (timestampAt w.now w.reads) (parseOldID sensor.ID), val)],
              calls := (w.rdb.calls ++
                [.get (x.Device ++ parseOldID sensor.ID) (some val)]) ++
                [.publish (insertKey x (timestampAt w.now w.reads) (parseOldID sensor.ID))
                    val none,
                  .set (insertKey x (timestampAt w.now w.reads) (parseOldID sensor.ID))
                    val none] },
            reads := w.reads + 1 }
        refine ⟨[.get (x.Device ++ parseOldID sensor.ID) (some val),
          .publish (insertKey x (timestampAt w.now w.reads) (parseOldID sensor.ID)) val none,
          .set (insertKey x (timestampAt w.now w.reads) (parseOldID sensor.ID)) val none]
            ++ new, ?_, ?_, ?_⟩
        · rw [hcalls]; simp
        · rw [hreads]
          have hlen : ([RedisCall.get (x.Device ++ parseOldID sensor.ID) (some val),
              .publish (insertKey x (timestampAt w.now w.reads) (parseOldID sensor.ID)) val
                none,
              .set (insertKey x (timestampAt w.now w.reads) (parseOldID sensor.ID)) val none]
                ++ new).length = new.length + 3 := by simp
          rw [hlen]
          simp only [List.cons_append, List.nil_append]
          rw [fetchedBefore_relay]
          omega
        · intro i key data err h
          rcases i with _ | _ | _ | i
          · simp at h
          · simp only [List.cons_append, List.getElem?_cons_succ, List.getElem?_cons_zero,
              Option.some.injEq, RedisCall.publish.injEq, reduceCtorEq, or_false] at h
            obtain ⟨hk, hd, _⟩ := h
            exact ⟨sensor, List.mem_cons_self _ _, 0, Nat.zero_lt_one, by omega,
              by simp [hd], by rw [fetchedBefore_zero]; exact hk.symm⟩
          · simp only [List.cons_append, List.getElem?_cons_succ, List.getElem?_cons_zero,
              Option.some.injEq, RedisCall.set.injEq, reduceCtorEq, false_or] at h
            obtain ⟨hk, hd, _⟩ := h
            exact ⟨sensor, List.mem_cons_self _ _, 0, Nat.zero_lt_two, by omega,
              by simp [hd], by rw [fetchedBefore_zero]; exact hk.symm⟩
          · simp only [List.cons_append, List.getElem?_cons_succ, List.nil_append] at h
            obtain ⟨s, hs, j, hj, hji, hjget, hkey⟩ := hnew i key data err h
            refine ⟨s, List.mem_cons_of_mem _ hs, j + 3, by omega, by omega, ?_, ?_⟩
            · simpa using hjget
            · simp only [List.cons_append, List.nil_append]
              rw [fetchedBefore_relay, hkey]
              have harith : w.reads + 1 + fetchedBefore new j =
                  w.reads + (fetchedBefore new j + 1) := by omega
              rw [harith]
    · rw [createInsertsLoop_get_error x sensor rest w e _ hget]
      refine ⟨[.get (x.Device ++ parseOldID sensor.ID) none], rfl,
        by simp [fetchedBefore, RedisCall.fetched], ?_⟩
      intro i key data err h
      rcases i with _ | i
      · simp at h
      · simp at h

/-- C10: every publish and every store command that `createInserts` sends
comes one or two commands after the fetch of the live-state key of a
configured device (the device prefix followed by `parseOldID` of its id),
carries as payload, unmodified, the value that fetch returned, and uses a key
equal to the insert prefix followed by the current epoch-millisecond
timestamp, a `:` and `parseOldID` of the id.  The current timestamp is the
clock reading taken right after that fetch: the pass takes one reading after
each fetch that returns a value, so it is the reading numbered by the
readings taken before the pass plus the earlier such fetches of the pass. -/
theorem createInserts_relay_key_payload (x : Env) (w : World) :
    ∃ new : List RedisCall,
      (createInserts x w).2.rdb.calls = w.rdb.calls ++ new ∧
      (createInserts x w).2.reads = w.reads + fetchedBefore new new.length ∧
      ∀ (i : Nat) (key data : String) (err : Option String),
        (new[i]? = some (.publish key data err) ∨ new[i]? = some (.set key data err)) →
        ∃ sensor ∈ w.config, ∃ j, j < i ∧ i ≤ j + 2 ∧
          new[j]? = some (.get (x.Device ++ parseOldID sensor.ID) (some data)) ∧
          key = x.Insert ++ toString (timestampAt w.now (w.reads + fetchedBefore new j)) ++
            ":" ++ parseOldID sensor.ID :=
  createInsertsLoop_relays x w.config w

/-- C10 on a process whose store holds a record for both configured devices
and whose clock reads 1000 ms and then 4000 ms: the pass relays the first
record under `insert:1000:aabbccddeeff` and the second under
`insert:4000:112233445566`, each with the value fetched just before. -/
theorem createInserts_relay_key_payload_witness :
    (createInserts Env.sample World.storedBoth).2.rdb.calls =
      [.get "device:aabbccddeeff" (some "record-of-sauna"),
        .publish "insert:1000:aabbccddeeff" "record-of-sauna" none,
        .set "insert:1000:aabbccddeeff" "record-of-sauna" none,
        .get "device:112233445566" (some "record-of-attic"),
        .publish "insert:4000:112233445566" "record-of-attic" none,
        .set "insert:4000:112233445566" "record-of-attic" none] ∧
    ∃ sensor ∈ World.storedBoth.config, ∃ j, j < 4 ∧ 4 ≤ j + 2 ∧
      [RedisCall.get "device:aabbccddeeff" (some "record-of-sauna"),
        .publish "insert:1000:aabbccddeeff" "record-of-sauna" none,
        .set "insert:1000:aabbccddeeff" "record-of-sauna" none,
        .get "device:112233445566" (some "record-of-attic"),
        .publish "insert:4000:112233445566" "record-of-attic" none,
        .set "insert:4000:112233445566" "record-of-attic" none][j]? =
        some (.get (Env.sample.Device ++ parseOldID sensor.ID) (some "record-of-attic")) ∧
      "insert:4000:112233445566" =
        Env.sample.Insert ++
          toString (timestampAt World.storedBoth.now (World.storedBoth.reads +
            fetchedBefore
              [RedisCall.get "device:aabbccddeeff" (some "record-of-sauna"),
                .publish "insert:1000:aabbccddeeff" "record-of-sauna" none,
                .set "insert:1000:aabbccddeeff" "record-of-sauna" none,
                .get "device:112233445566" (some "record-of-attic"),
                .publish "insert:4000:112233445566" "record-of-attic" none,
                .set "insert:4000:112233445566" "record-of-attic" none] j)) ++
          ":" ++ parseOldID sensor.ID := by
  have hc : (createInserts Env.sample World.storedBoth).2.rdb.calls =
      [.get "device:aabbccddeeff" (some "record-of-sauna"),
        .publish "insert:1000:aabbccddeeff" "record-of-sauna" none,
        .set "insert:1000:aabbccddeeff" "record-of-sauna" none,
        .get "device:112233445566" (some "record-of-attic"),
        .publish "insert:4000:112233445566" "record-of-attic" none,
        .set "insert:4000:112233445566" "record-of-attic" none] := by decide
  refine ⟨hc, ?_⟩
  obtain ⟨new, hcalls, _, hnew⟩ := createInserts_relay_key_payload Env.sample World.storedBoth
  rw [hc] at hcalls
  have hn : new = [.get "device:aabbccddeeff" (some "record-of-sauna"),
        .publish "insert:1000:aabbccddeeff" "record-of-sauna" none,
        .set "insert:1000:aabbccddeeff" "record-of-sauna" none,
        .get "device:112233445566" (some "record-of-attic"),
        .publish "insert:4000:112233445566" "record-of-attic" none,
        .set "insert:4000:112233445566" "record-of-attic" none] := by
    rw [hcalls]; rfl
  subst hn
  exact hnew 4 "insert:4000:112233445566" "record-of-attic" none (Or.inl rfl)

/-- C1, the code at the failing input: the configuration lists a device
without record first and a device whose record is in the store second; the
pass fetches the first, returns without a panic, and has sent no command for
the second device, whose record is not republished. -/
theorem createInserts_stops_at_absent :
    World.gap.config.map JsonDevice.ID = ["11:22:33:44:55:66", "AA:BB:CC:DD:EE:FF"] ∧
    World.gap.rdb.kv (Env.sample.Device ++ parseOldID "11:22:33:44:55:66") = none ∧
    World.gap.rdb.kv (Env.sample.Device ++ parseOldID "AA:BB:CC:DD:EE:FF") =
      some "record-of-sauna" ∧
    (createInserts Env.sample World.gap).1 = .done () ∧
    (createInserts Env.sample World.gap).2.rdb.calls = [.get "device:112233445566" none] ∧
    (createInserts Env.sample World.gap).2.rdb.published = [] := by
  decide

end Ruuvitag
